import Mathlib

/-!
# cats-social-api: the cat usecase (`internal/usecase/cat.go`)

A shallow embedding of the validators and of the transactional usecase
operations of `internal/usecase/cat.go`, followed by theorems about them.

Conventions of the embedding

* A Go `string` is a Lean `String`; Go's `len(s)` is the byte length
  (`String.utf8ByteSize`).
* A Go pointer `*T` is `Option T` (`none` is `nil`); a Go slice `[]T` that is
  compared with `nil` is `Option (List T)` (`none` is the nil slice).
* A Go `error` is `Option GoError` (`none` is `nil`); a Go result pair
  `(*T, error)` is a Lean pair, so a non-nil value next to a non-nil error
  is representable, as it is in Go.
* A runtime panic is an explicit `Outcome.fault`.
* The repository (`u.repo`) is a deterministic state machine over an
  arbitrary state type; every call the usecase makes on it is appended to a
  call log, so "called exactly once", "never commits" and the like are
  statements about that log.
-/

namespace CatsSocial

/-! ## Errors -/

/-- Go `error` values met by the usecase. `ErrValidation` and `ErrEmailExists`
are the two sentinels of the `error_envelope` package the file refers to,
`ErrNoRows` is `sql.ErrNoRows`, `other` is any other error and `wrap` is an
error wrapping another one (`fmt.Errorf("...%w", err)`). -/
inductive GoError where
  | ErrValidation : GoError
  | ErrEmailExists : GoError
  | ErrNoRows : GoError
  | other (msg : String) : GoError
  | wrap (msg : String) (inner : GoError) : GoError
  deriving DecidableEq, Repr

/-- Go's `errors.Is(err, target)`: `err` is `target` or wraps it. -/
def errorsIs : GoError → GoError → Bool
  | .wrap msg inner, target =>
      if GoError.wrap msg inner = target then true else errorsIs inner target
  | err, target => decide (err = target)

/-- Runtime panics of the Go program that the embedding tracks. -/
inductive Fault where
  | nilDereference : Fault
  | indexOutOfRange : Fault
  deriving DecidableEq, Repr

/-- How a Go function call ends: it returns a value, or it panics. -/
inductive Outcome (α : Type) where
  | returned (a : α) : Outcome α
  | fault (f : Fault) : Outcome α
  deriving DecidableEq, Repr

instance : Monad Outcome where
  pure := Outcome.returned
  bind m f :=
    match m with
    | .returned a => f a
    | .fault k => .fault k

/-! ## Go primitives -/

/-- Go's `len` on a string: the number of bytes. -/
def len (s : String) : Nat := s.utf8ByteSize

/-- Go's `len` on a slice; the nil slice has length 0. -/
def sliceLen {α : Type} : Option (List α) → Nat
  | none => 0
  | some l => l.length

/-- The assignment `*p = v` through a pointer `p`: it panics when `p` is nil,
otherwise the pointer now refers to `v`. -/
def storeThrough {α : Type} (p : Option α) (v : α) : Outcome (Option α) :=
  match p with
  | none => .fault .nilDereference
  | some _ => .returned (some v)

/-- Go's `append(s, x)` on a slice that may be nil: the result is never nil. -/
def goAppend {α : Type} (s : Option (List α)) (x : α) : Option (List α) :=
  match s with
  | none => some [x]
  | some l => some (l ++ [x])

/-! ## The standard library package `strconv` -/

/-- The error `&strconv.NumError{Func: fn, Num: str, Err: strconv.ErrSyntax}`:
an error that wraps the sentinel `strconv.ErrSyntax`. -/
def strconv.syntaxError (fn str : String) : GoError :=
  .wrap ("strconv." ++ fn ++ ": parsing " ++ str) (.other "invalid syntax")

/-- The error `&strconv.NumError{Func: fn, Num: str, Err: strconv.ErrRange}`. -/
def strconv.rangeError (fn str : String) : GoError :=
  .wrap ("strconv." ++ fn ++ ": parsing " ++ str) (.other "value out of range")

/-- The function `strconv.ParseBool`. -/
def strconv.ParseBool (str : String) : Except GoError Bool :=
  if str = "1" ∨ str = "t" ∨ str = "T" ∨ str = "TRUE" ∨ str = "true" ∨ str = "True" then
    .ok true
  else if str = "0" ∨ str = "f" ∨ str = "F" ∨ str = "FALSE" ∨ str = "false" ∨ str = "False" then
    .ok false
  else .error (strconv.syntaxError "ParseBool" str)

/-- The digit loop of `strconv.ParseUint(s, 10, 64)` over the remaining
characters, with the value `n` read so far: a character that is not a decimal
digit is a syntax error (`.error false`), a value above `2^64 - 1` a range
error (`.error true`). -/
def strconv.digits : List Char → Nat → Except Bool Nat
  | [], n => .ok n
  | c :: cs, n =>
    if '0' ≤ c ∧ c ≤ '9' then
      if n ≥ (2 ^ 64 - 1) / 10 + 1 then .error true
      else if n * 10 + (c.toNat - '0'.toNat) > 2 ^ 64 - 1 then .error true
      else strconv.digits cs (n * 10 + (c.toNat - '0'.toNat))
    else .error false

/-- The function `strconv.ParseUint(s, 10, 64)`: one or more decimal digits,
no sign, value at most `2^64 - 1`. -/
def strconv.ParseUint (s : String) : Except GoError Nat :=
  if s = "" then .error (strconv.syntaxError "ParseUint" s)
  else
    match strconv.digits s.data 0 with
    | .ok n => .ok n
    | .error true => .error (strconv.rangeError "ParseUint" s)
    | .error false => .error (strconv.syntaxError "ParseUint" s)

/-- The magnitude part of `strconv.Atoi`: the digits after the optional sign,
and the range check of `ParseInt` for a 64-bit `int`. -/
def strconv.atoiMagnitude (s0 : String) (neg : Bool) (ds : List Char) : Except GoError Int :=
  if ds = [] then .error (strconv.syntaxError "Atoi" s0)
  else
    match strconv.digits ds 0 with
    | .error true => .error (strconv.rangeError "Atoi" s0)
    | .error false => .error (strconv.syntaxError "Atoi" s0)
    | .ok un =>
      if ¬ neg ∧ un ≥ 2 ^ 63 then .error (strconv.rangeError "Atoi" s0)
      else if neg ∧ un > 2 ^ 63 then .error (strconv.rangeError "Atoi" s0)
      else .ok (if neg then - (un : Int) else (un : Int))

/-- The function `strconv.Atoi` where `int` has 64 bits: an optional sign
`+` or `-`, then one or more decimal digits, with a value in
`-2^63 .. 2^63 - 1`. (Its fast path for short strings gives the same results
as `ParseInt(s, 10, 0)`, which is what is written here.) -/
def strconv.Atoi (s : String) : Except GoError Int :=
  match s.data with
  | [] => .error (strconv.syntaxError "Atoi" s)
  | c :: cs =>
    if c = '+' then strconv.atoiMagnitude s false cs
    else if c = '-' then strconv.atoiMagnitude s true cs
    else strconv.atoiMagnitude s false (c :: cs)

/-! ## The packages the file imports (`entity`, `time`, `constant`) -/

/-- The parts of the imported packages `entity`, `time` and `constant` that
`cat.go` uses and whose source is not part of the file: the enum types with
their parsers `entity.StringToSex`, `entity.StringToRace` and their `String()`
methods, the `entity.Match` record, and `time.Time` with
`Format(constant.DefaultDateFormat)` and its zero value. -/
structure Entity where
  Sex : Type
  Race : Type
  Match : Type
  Time : Type
  StringToSex : String → Except GoError Sex
  StringToRace : String → Except GoError Race
  SexString : Sex → String
  RaceString : Race → String
  Format : Time → String
  zeroTime : Time

/-! ## Data model (`entity`, `model`) -/

/-- The struct `entity.Cat`, with the fields `cat.go` reads or writes. -/
structure Cat (E : Entity) where
  ID : Nat
  UserID : Nat
  Name : String
  Sex : E.Sex
  Race : E.Race
  ImageUrls : Option (List String)
  Age : Int
  Description : String
  HasMatched : Bool
  CreatedAt : E.Time

/-- The struct `model.CreateCatRequest`. -/
structure CreateCatRequest where
  UserID : Nat
  Name : String
  Sex : String
  Race : String
  AgeInMonth : Int
  Description : String
  ImageUrls : Option (List String)
  deriving DecidableEq, Repr

/-- The struct `model.CreateCatResponse`. -/
structure CreateCatResponse where
  CreatedAt : String
  ID : String
  deriving DecidableEq, Repr

/-- The struct `model.UpdateCatRequest`: every field but the two IDs is a
pointer or a slice, nil when the request does not supply it. -/
structure UpdateCatRequest where
  ID : Nat
  UserID : Nat
  Name : Option String
  Sex : Option String
  Race : Option String
  ImageUrls : Option (List String)
  AgeInMonth : Option Int
  Description : Option String
  deriving DecidableEq, Repr

/-- The struct `model.InputUpdateCat`, the update command. -/
structure InputUpdateCat where
  ID : Nat
  UserID : Nat
  Name : Option String
  Sex : Option String
  Race : Option String
  ImageUrls : Option (List String)
  Age : Option Int
  Description : Option String
  deriving DecidableEq, Repr

/-- The zero value of `model.InputUpdateCat` (`var updateCat model.InputUpdateCat`). -/
def InputUpdateCat.zero : InputUpdateCat :=
  { ID := 0, UserID := 0, Name := none, Sex := none, Race := none,
    ImageUrls := none, Age := none, Description := none }

/-- The struct `model.FilterFindMatch`. -/
structure FilterFindMatch where
  CatId : Option (List Nat)
  deriving DecidableEq, Repr

/-- The struct `model.FilterFindCat`. -/
structure FilterFindCat where
  Limit : Int
  Offset : Int
  HasMatched : Option Bool
  UserID : Option Nat
  Sex : Option String
  Race : Option String
  ID : Option (List Nat)
  SearchName : Option String
  Age : Option String
  deriving DecidableEq, Repr

/-- The zero value of `model.FilterFindCat`. -/
def FilterFindCat.zero : FilterFindCat :=
  { Limit := 0, Offset := 0, HasMatched := none, UserID := none, Sex := none,
    Race := none, ID := none, SearchName := none, Age := none }

/-- The struct `model.FindCatRequest`: the query parameters as strings, and
the ID of the caller. -/
structure FindCatRequest where
  UserId : Nat
  Limit : String
  Offset : String
  HasMatched : String
  Owned : String
  Sex : String
  Race : String
  ID : String
  SearchName : String
  Age : String
  deriving DecidableEq, Repr

/-- The struct `model.FindCatResponse`. -/
structure FindCatResponse where
  ID : String
  Name : String
  Sex : String
  Race : String
  ImageUrls : Option (List String)
  AgeInMonth : Int
  Description : String
  HasMatched : Bool
  CreatedAt : String
  deriving DecidableEq, Repr

/-! ## Validators -/

/-- The function `validateRegisterCat` (cat.go, lines 58-104). -/
def validateRegisterCat (E : Entity) (req : CreateCatRequest) :
    Option (Cat E) × Option GoError :=
  if len req.Name < 1 ∨ len req.Name > 30 then (none, some .ErrValidation)
  else if len req.Sex = 0 then (none, some .ErrValidation)
  else
    match E.StringToSex req.Sex with
    | .error _ => (none, some .ErrValidation)
    | .ok tSex =>
      if len req.Race = 0 then (none, some .ErrValidation)
      else
        match E.StringToRace req.Race with
        | .error _ => (none, some .ErrValidation)
        | .ok tRace =>
          if req.AgeInMonth ≤ 0 then (none, some .ErrValidation)
          else if len req.Description ≤ 1 ∨ len req.Description > 200 then
            (none, some .ErrValidation)
          else if sliceLen req.ImageUrls ≤ 0 then (none, some .ErrValidation)
          else
            (some
              { ID := 0
                UserID := req.UserID
                Name := req.Name
                Sex := tSex
                Race := tRace
                ImageUrls := req.ImageUrls
                Age := req.AgeInMonth
                Description := req.Description
                HasMatched := false
                CreatedAt := E.zeroTime },
             none)

/-- The function `validateUpdateCat` (cat.go, lines 180-227). The local
`updateCat` is threaded through as a mutable variable; `return` leaves the
function at once, as in Go. -/
def validateUpdateCat (E : Entity) (req : UpdateCatRequest) :
    Outcome (Option InputUpdateCat × Option GoError) := do
  let mut updateCat : InputUpdateCat := InputUpdateCat.zero
  updateCat := { updateCat with ID := req.ID }
  updateCat := { updateCat with UserID := req.UserID }
  if let some name := req.Name then
    if len name ≤ 1 ∨ len name > 30 then
      return (none, some .ErrValidation)
    updateCat := { updateCat with Name := req.Name }
  if let some sex := req.Sex then
    match E.StringToSex sex with
    | .error _ => return (some updateCat, some .ErrValidation)
    | .ok t =>
      let p ← storeThrough updateCat.Sex (E.SexString t)
      updateCat := { updateCat with Sex := p }
  if let some race := req.Race then
    match E.StringToRace race with
    | .error _ => return (some updateCat, some .ErrValidation)
    | .ok t =>
      let p ← storeThrough updateCat.Race (E.RaceString t)
      updateCat := { updateCat with Race := p }
  if req.ImageUrls ≠ none ∨ sliceLen req.ImageUrls > 0 then
    updateCat := { updateCat with ImageUrls := req.ImageUrls }
  if req.AgeInMonth ≠ none then
    updateCat := { updateCat with Age := req.AgeInMonth }
  if let some description := req.Description then
    if len description ≤ 1 ∨ len description > 200 then
      return (none, some .ErrValidation)
    updateCat := { updateCat with Description := req.Description }
  return (none, none)

/-- Lines 266-270 of `parseFilterFindCat`: `limit, err := strconv.Atoi(in.Limit)`,
`return nil, err` on an error, else `out.Limit = limit`. In this and the
following steps `.error err` is the early `return nil, err` and `.ok` carries
the filter `out` on to the next statement. -/
def parseFilterFindCat.limit (req : FindCatRequest) (out : FilterFindCat) :
    Except GoError FilterFindCat :=
  match strconv.Atoi req.Limit with
  | .error err => .error err
  | .ok limit => .ok { out with Limit := limit }

/-- Lines 272-276 of `parseFilterFindCat`: the offset. -/
def parseFilterFindCat.offset (req : FindCatRequest) (out : FilterFindCat) :
    Except GoError FilterFindCat :=
  match strconv.Atoi req.Offset with
  | .error err => .error err
  | .ok offset => .ok { out with Offset := offset }

/-- Lines 278-285 of `parseFilterFindCat`: the key `hasMatched`. -/
def parseFilterFindCat.hasMatched (req : FindCatRequest) (out : FilterFindCat) :
    Except GoError FilterFindCat :=
  if req.HasMatched ≠ "" then
    match strconv.ParseBool req.HasMatched with
    | .error err => .error err
    | .ok hasMatched => .ok { out with HasMatched := some hasMatched }
  else .ok out

/-- Lines 287-296 of `parseFilterFindCat`: the key `owned`. -/
def parseFilterFindCat.owned (req : FindCatRequest) (out : FilterFindCat) :
    Except GoError FilterFindCat :=
  if req.Owned ≠ "" then
    match strconv.ParseBool req.Owned with
    | .error err => .error err
    | .ok owned => if owned then .ok { out with UserID := some req.UserId } else .ok out
  else .ok out

/-- Lines 298-305 of `parseFilterFindCat`: the key `sex`. -/
def parseFilterFindCat.sex (E : Entity) (req : FindCatRequest) (out : FilterFindCat) :
    Except GoError FilterFindCat :=
  if req.Sex ≠ "" then
    match E.StringToSex req.Sex with
    | .error err => .error err
    | .ok _ => .ok { out with Sex := some req.Sex }
  else .ok out

/-- Lines 307-314 of `parseFilterFindCat`: the key `race`. -/
def parseFilterFindCat.race (E : Entity) (req : FindCatRequest) (out : FilterFindCat) :
    Except GoError FilterFindCat :=
  if req.Race ≠ "" then
    match E.StringToRace req.Race with
    | .error err => .error err
    | .ok _ => .ok { out with Race := some req.Race }
  else .ok out

/-- Lines 316-322 of `parseFilterFindCat`: the key `id`. -/
def parseFilterFindCat.id (req : FindCatRequest) (out : FilterFindCat) :
    Except GoError FilterFindCat :=
  if req.ID ≠ "" then
    match strconv.ParseUint req.ID with
    | .error err => .error err
    | .ok id => .ok { out with ID := some [id] }
  else .ok out

/-- Lines 324-326 of `parseFilterFindCat`: the key `searchName`. -/
def parseFilterFindCat.searchName (req : FindCatRequest) (out : FilterFindCat) :
    Except GoError FilterFindCat :=
  if req.SearchName ≠ "" then .ok { out with SearchName := some req.SearchName }
  else .ok out

/-- Lines 328-343 of `parseFilterFindCat`: the key `age`. The loop over
`allowed` sets `ok` when one of the three tokens equals `in.Age`. -/
def parseFilterFindCat.age (req : FindCatRequest) (out : FilterFindCat) :
    Except GoError FilterFindCat :=
  if req.Age ≠ "" then
    if ¬ [">4", "<4", "4"].any (fun v => req.Age = v) then .error .ErrValidation
    else .ok { out with Age := some req.Age }
  else .ok out

/-- The statements of `parseFilterFindCat` in sequence, from the zero filter
`new(model.FilterFindCat)`: the first error ends the run. -/
def parseFilterFindCat.run (E : Entity) (req : FindCatRequest) : Except GoError FilterFindCat :=
  parseFilterFindCat.limit req FilterFindCat.zero
    >>= parseFilterFindCat.offset req
    >>= parseFilterFindCat.hasMatched req
    >>= parseFilterFindCat.owned req
    >>= parseFilterFindCat.sex E req
    >>= parseFilterFindCat.race E req
    >>= parseFilterFindCat.id req
    >>= parseFilterFindCat.searchName req
    >>= parseFilterFindCat.age req

/-- The function `parseFilterFindCat` (cat.go, lines 263-346): `nil, err` at
the first failing statement, `out, nil` at the end. -/
def parseFilterFindCat (E : Entity) (req : FindCatRequest) :
    Option FilterFindCat × Option GoError :=
  match parseFilterFindCat.run E req with
  | .error err => (none, some err)
  | .ok out => (some out, none)

/-! ## The repository port and the call log -/

/-- One call made by the usecase on the repository or on the transaction it
handed out, with the arguments passed. -/
inductive Call (E : Entity) where
  | WithTransaction : Call E
  | CreateCat (cat : Option (Cat E)) : Call E
  | DeleteCat (catId userId : Nat) : Call E
  | UpdateCat (cmd : Option InputUpdateCat) : Call E
  | FindMatch (filter : FilterFindMatch) : Call E
  | FindCat (filter : Option FilterFindCat) : Call E
  | Commit : Call E
  | Rollback : Call E

/-- Whether a call is `tx.Commit()`. -/
def Call.isCommit {E : Entity} : Call E → Bool
  | .Commit => true
  | _ => false

/-- Whether a call is `tx.Rollback()`. -/
def Call.isRollback {E : Entity} : Call E → Bool
  | .Rollback => true
  | _ => false

/-- Whether a call is the repository write `repo.UpdateCat`. -/
def Call.isUpdateCat {E : Entity} : Call E → Bool
  | .UpdateCat _ => true
  | _ => false

/-- The number of `tx.Commit()` calls in a call log. -/
def commits {E : Entity} (calls : List (Call E)) : Nat :=
  calls.countP Call.isCommit

/-- The number of `tx.Rollback()` calls in a call log. -/
def rollbacks {E : Entity} (calls : List (Call E)) : Nat :=
  calls.countP Call.isRollback

/-- The number of `repo.UpdateCat` calls in a call log. -/
def updateWrites {E : Entity} (calls : List (Call E)) : Nat :=
  calls.countP Call.isUpdateCat

/-- The cats handed to the repository insert `repo.CreateCat` in a call log. -/
def insertedCats {E : Entity} (calls : List (Call E)) : List (Cat E) :=
  calls.filterMap fun c =>
    match c with
    | .CreateCat (some cat) => some cat
    | _ => none

/-- The repository behind `u.repo`, as a deterministic state machine over a
state `σ`: every method takes the current state and gives its Go results and
the next state. Pointer arguments that can be nil are `Option`s.
`WithTransaction` gives the
error only; the transaction it opens lives in the state, and `Commit` and
`Rollback` are the methods of that transaction. -/
structure Repo (E : Entity) (σ : Type) where
  WithTransaction : σ → Option GoError × σ
  CreateCat : Option (Cat E) → σ → (Nat × Option GoError) × σ
  DeleteCat : Nat → Nat → σ → Option GoError × σ
  UpdateCat : Option InputUpdateCat → σ → Option GoError × σ
  FindMatch : FilterFindMatch → σ → (List E.Match × Option GoError) × σ
  FindCat : Option FilterFindCat → σ → (List (Cat E) × Option GoError) × σ
  Commit : σ → Option GoError × σ
  Rollback : σ → Option GoError × σ

/-- The repository `repo` with the error returned by `tx.Commit()` replaced by
`f`; the state after the commit is unchanged. -/
def withCommitError {E : Entity} {σ : Type} (repo : Repo E σ) (f : σ → Option GoError) :
    Repo E σ :=
  { repo with Commit := fun s => (f s, (repo.Commit s).2) }

/-- One execution of a usecase method: how it ended, the repository state it
left, and the calls it made, oldest first. -/
structure Exec (E : Entity) (σ α : Type) where
  outcome : Outcome α
  state : σ
  calls : List (Call E)

/-- Leaving a method after its `defer func() { if err != nil { tx.Rollback() } }()`
has been registered: the closure runs with the value the function-level
variable `err` has at that moment, on a return and on a panic alike. -/
def exitDeferred {E : Entity} {σ α : Type} (repo : Repo E σ) (err : Option GoError)
    (out : Outcome α) (s : σ) (calls : List (Call E)) : Exec E σ α :=
  match err with
  | some _ => { outcome := out, state := (repo.Rollback s).2, calls := calls ++ [.Rollback] }
  | none => { outcome := out, state := s, calls := calls }

/-! ## Usecase methods -/

/-- The method `Usecase.CreateCat` (cat.go, lines 17-56). Every `err` of the
method is the one function-level variable, which the deferred closure reads.
The argument `userId` is not used by the body. -/
def CreateCat {E : Entity} {σ : Type} (repo : Repo E σ) (s0 : σ)
    (req : CreateCatRequest) (_userId : Nat) :
    Exec E σ (Option CreateCatResponse × Option GoError) :=
  match validateRegisterCat E req with
  | (_, some err) => { outcome := .returned (none, some err), state := s0, calls := [] }
  | (inputRegister, none) =>
    match repo.WithTransaction s0 with
    | (some err, s1) =>
      { outcome := .returned (none, some err), state := s1, calls := [.WithTransaction] }
    | (none, s1) =>
      match repo.CreateCat inputRegister s1 with
      | ((_, some err), s2) =>
        exitDeferred repo (some err) (.returned (none, some err)) s2
          [.WithTransaction, .CreateCat inputRegister]
      | ((catId, none), s2) =>
        let s3 := (repo.Commit s2).2
        let filter : FilterFindCat := { FilterFindCat.zero with ID := some [catId] }
        let calls : List (Call E) :=
          [.WithTransaction, .CreateCat inputRegister, .Commit, .FindCat (some filter)]
        match repo.FindCat (some filter) s3 with
        | ((_, some err), s4) =>
          exitDeferred repo (some err) (.returned (none, some err)) s4 calls
        | ((cats, none), s4) =>
          match cats with
          | [] => exitDeferred repo none (.fault .indexOutOfRange) s4 calls
          | cat :: _ =>
            exitDeferred repo none
              (.returned
                (some { CreatedAt := E.Format cat.CreatedAt, ID := toString cat.ID }, none))
              s4 calls

/-- The method `Usecase.DeleteCat` (cat.go, lines 106-131). -/
def DeleteCat {E : Entity} {σ : Type} (repo : Repo E σ) (s0 : σ) (catId userId : Nat) :
    Exec E σ (Option GoError) :=
  match repo.WithTransaction s0 with
  | (some err, s1) => { outcome := .returned (some err), state := s1, calls := [.WithTransaction] }
  | (none, s1) =>
    match repo.DeleteCat catId userId s1 with
    | (some err, s2) =>
      exitDeferred repo (some err) (.returned (some err)) s2
        [.WithTransaction, .DeleteCat catId userId]
    | (none, s2) =>
      exitDeferred repo none (.returned none) (repo.Commit s2).2
        [.WithTransaction, .DeleteCat catId userId, .Commit]

/-- The body of the loop of `Usecase.FindCat` (lines 247-257): the response
built from one cat. -/
def FindCat.response {E : Entity} (cat : Cat E) : FindCatResponse :=
  { ID := toString cat.ID
    Name := cat.Name
    Sex := E.SexString cat.Sex
    Race := E.RaceString cat.Race
    ImageUrls := cat.ImageUrls
    AgeInMonth := cat.Age
    Description := cat.Description
    HasMatched := cat.HasMatched
    CreatedAt := E.Format cat.CreatedAt }

/-- The method `Usecase.FindCat` (cat.go, lines 229-261). The slice `resp`
starts nil and grows by `append`, one response per cat, in order. -/
def FindCat {E : Entity} {σ : Type} (repo : Repo E σ) (s0 : σ) (req : FindCatRequest) :
    Exec E σ (Option (List FindCatResponse) × Option GoError) :=
  match parseFilterFindCat E req with
  | (_, some _) => { outcome := .returned (none, some .ErrValidation), state := s0, calls := [] }
  | (filter, none) =>
    match repo.FindCat filter s0 with
    | ((_, some err), s1) =>
      { outcome := .returned (none, some err), state := s1, calls := [.FindCat filter] }
    | ((cats, none), s1) =>
      { outcome :=
          .returned (cats.foldl (fun resp cat => goAppend resp (FindCat.response cat)) none, none)
        state := s1
        calls := [.FindCat filter] }

/-- Lines 169-177 of `Usecase.UpdateCat`: the repository write, then the
commit. Here `err = u.repo.UpdateCat(...)` assigns the function-level `err`. -/
def UpdateCat.write {E : Entity} {σ : Type} (repo : Repo E σ) (s : σ)
    (calls : List (Call E)) (updateInput : Option InputUpdateCat) :
    Exec E σ (Option GoError) :=
  match repo.UpdateCat updateInput s with
  | (some err, s1) =>
    exitDeferred repo (some err) (.returned (some err)) s1 (calls ++ [.UpdateCat updateInput])
  | (none, s1) =>
    exitDeferred repo none (.returned none) (repo.Commit s1).2
      (calls ++ [.UpdateCat updateInput, .Commit])

/-- Lines 143-177 of `Usecase.UpdateCat`, run on the pointer `updateInput`
that validation returned (`matchList` is the source's `matches`). Inside `if updateInput.Sex != nil { ... }` the
statement `matches, err := u.repo.FindMatch(...)` declares a new `err`
local to that block, so on both returns of the block the function-level
`err`, which the deferred closure reads, is still nil. -/
def UpdateCat.transact {E : Entity} {σ : Type} (repo : Repo E σ) (s0 : σ)
    (req : UpdateCatRequest) (updateInput : Option InputUpdateCat) :
    Exec E σ (Option GoError) :=
  match repo.WithTransaction s0 with
  | (some err, s1) => { outcome := .returned (some err), state := s1, calls := [.WithTransaction] }
  | (none, s1) =>
    match updateInput with
    | none => exitDeferred repo none (.fault .nilDereference) s1 [.WithTransaction]
    | some cmd =>
      if cmd.Sex ≠ none then
        let filter : FilterFindMatch := { CatId := some [req.ID] }
        let calls : List (Call E) := [.WithTransaction, .FindMatch filter]
        match repo.FindMatch filter s1 with
        | ((matchList, some errInner), s2) =>
          if ¬ errorsIs errInner .ErrNoRows then
            exitDeferred repo none (.returned (some errInner)) s2 calls
          else if matchList.length > 0 then
            exitDeferred repo none (.returned (some .ErrEmailExists)) s2 calls
          else UpdateCat.write repo s2 calls updateInput
        | ((matchList, none), s2) =>
          if matchList.length > 0 then
            exitDeferred repo none (.returned (some .ErrEmailExists)) s2 calls
          else UpdateCat.write repo s2 calls updateInput
      else UpdateCat.write repo s1 [.WithTransaction] updateInput

/-- The method `Usecase.UpdateCat` (cat.go, lines 133-178). -/
def UpdateCat {E : Entity} {σ : Type} (repo : Repo E σ) (s0 : σ)
    (req : UpdateCatRequest) : Exec E σ (Option GoError) :=
  match validateUpdateCat E req with
  | .fault k => { outcome := .fault k, state := s0, calls := [] }
  | .returned (_, some err) => { outcome := .returned (some err), state := s0, calls := [] }
  | .returned (updateInput, none) => UpdateCat.transact repo s0 req updateInput

/-! ## Concrete instances used to run the code -/

/-- The two values of the sex enum. -/
inductive SampleSex where
  | male : SampleSex
  | female : SampleSex
  deriving DecidableEq, Repr

/-- A two-valued stand-in for the race enum. -/
inductive SampleRace where
  | persian : SampleRace
  | siamese : SampleRace
  deriving DecidableEq, Repr

/-- Modelled from the spec: the `entity` package, whose source is not part of
the file. The sex enum has the tokens `male` and `female` (spec, section 3) and
each parser accepts exactly the canonical tokens of its enum (section 4.1). The
spec does not list the races, so two stand-in tokens are used; times are
numbers printed in decimal. This instance only serves to run the code on
concrete inputs; the general theorems hold for every `Entity`. -/
def sampleEntity : Entity :=
  { Sex := SampleSex
    Race := SampleRace
    Match := Nat
    Time := Nat
    StringToSex := fun s =>
      if s = "male" then .ok .male
      else if s = "female" then .ok .female
      else .error (.other "invalid sex")
    StringToRace := fun s =>
      if s = "Persian" then .ok .persian
      else if s = "Siamese" then .ok .siamese
      else .error (.other "invalid race")
    SexString := fun x =>
      match x with
      | .male => "male"
      | .female => "female"
    RaceString := fun x =>
      match x with
      | .persian => "Persian"
      | .siamese => "Siamese"
    Format := fun t => toString t
    zeroTime := 0 }

/-- The fixed answers of a scripted repository. -/
structure Script (E : Entity) where
  onBegin : Option GoError
  onCreate : Nat × Option GoError
  onDelete : Option GoError
  onUpdate : Option GoError
  onFindMatch : List E.Match × Option GoError
  onFindCat : List (Cat E) × Option GoError
  onCommit : Option GoError
  onRollback : Option GoError

/-- A repository that answers every call from a script; its state counts the
calls it has received. -/
def scriptedRepo {E : Entity} (sc : Script E) : Repo E Nat :=
  { WithTransaction := fun n => (sc.onBegin, n + 1)
    CreateCat := fun _ n => (sc.onCreate, n + 1)
    DeleteCat := fun _ _ n => (sc.onDelete, n + 1)
    UpdateCat := fun _ n => (sc.onUpdate, n + 1)
    FindMatch := fun _ n => (sc.onFindMatch, n + 1)
    FindCat := fun _ n => (sc.onFindCat, n + 1)
    Commit := fun n => (sc.onCommit, n + 1)
    Rollback := fun n => (sc.onRollback, n + 1) }

/-- A repository that answers every call from a script and records in its own
state, oldest first, the name of every method applied to it. -/
def tracingRepo {E : Entity} (sc : Script E) : Repo E (List String) :=
  { WithTransaction := fun t => (sc.onBegin, t ++ ["WithTransaction"])
    CreateCat := fun _ t => (sc.onCreate, t ++ ["CreateCat"])
    DeleteCat := fun _ _ t => (sc.onDelete, t ++ ["DeleteCat"])
    UpdateCat := fun _ t => (sc.onUpdate, t ++ ["UpdateCat"])
    FindMatch := fun _ t => (sc.onFindMatch, t ++ ["FindMatch"])
    FindCat := fun _ t => (sc.onFindCat, t ++ ["FindCat"])
    Commit := fun t => (sc.onCommit, t ++ ["Commit"])
    Rollback := fun t => (sc.onRollback, t ++ ["Rollback"]) }

/-- A stored cat, as the repository would return it. -/
def storedCat : Cat sampleEntity :=
  { ID := 1, UserID := 3, Name := "Tom", Sex := .male, Race := .persian,
    ImageUrls := some ["http://x/1.jpg"], Age := 12, Description := "A calm cat",
    HasMatched := false, CreatedAt := (1700000000 : Nat) }

/-- The script in which every repository call succeeds, the listing has no
match and the re-fetch returns the stored cat. -/
def allSucceed : Script sampleEntity :=
  { onBegin := none, onCreate := (1, none), onDelete := none, onUpdate := none,
    onFindMatch := ([], none), onFindCat := ([storedCat], none),
    onCommit := none, onRollback := none }

/-- The script of `allSucceed`, except that the match lookup finds one match. -/
def oneMatch : Script sampleEntity :=
  { allSucceed with onFindMatch := ([(5 : Nat)], none) }

/-- The script of `allSucceed`, except that the re-fetch of the cat fails. -/
def refetchFails : Script sampleEntity :=
  { allSucceed with onFindCat := ([], some (.other "read failed")) }

/-- The script of `allSucceed`, except that no transaction can be begun. -/
def beginFails : Script sampleEntity :=
  { allSucceed with onBegin := some (.other "no connection") }

/-- The script of `allSucceed`, except that the delete fails. -/
def deleteFails : Script sampleEntity :=
  { allSucceed with onDelete := some (.other "delete failed") }

/-- The script of `allSucceed`, except that `tx.Commit()` returns an error. -/
def commitFails : Script sampleEntity :=
  { allSucceed with onCommit := some (.other "commit failed") }

/-- The script of `allSucceed`, except that the re-fetch of the cat returns an
empty list and no error. -/
def emptyRefetch : Script sampleEntity :=
  { allSucceed with onFindCat := ([], none) }

/-- The find request of caller 3 with limit 10, offset 0 and no other key. -/
def firstPage : FindCatRequest :=
  { UserId := 3, Limit := "10", Offset := "0", HasMatched := "", Owned := "", Sex := "",
    Race := "", ID := "", SearchName := "", Age := "" }

/-- What "a decimal integer string" means: an optional sign `+` or `-`
followed by one or more decimal digits. -/
def isDecimalInteger (s : String) : Bool :=
  match s.data with
  | [] => false
  | c :: cs =>
    if c = '+' ∨ c = '-' then !cs.isEmpty && cs.all Char.isDigit
    else (c :: cs).all Char.isDigit

/-- The valid create request of the end-to-end scenario of the spec. -/
def validCreate : CreateCatRequest :=
  { UserID := 3, Name := "Tom", Sex := "male", Race := "Persian", AgeInMonth := 12,
    Description := "A calm cat", ImageUrls := some ["http://x/1.jpg"] }

/-- The update request for listing 7 of user 3 that supplies no field. -/
def emptyUpdate : UpdateCatRequest :=
  { ID := 7, UserID := 3, Name := none, Sex := none, Race := none,
    ImageUrls := none, AgeInMonth := none, Description := none }

/-! ## Shared lemmas -/

/-- A string has byte length 0 exactly when it is the empty string. -/
theorem len_eq_zero_iff (s : String) : len s = 0 ↔ s = "" := by
  obtain ⟨cs⟩ := s
  cases cs with
  | nil => simp [len, String.utf8ByteSize, String.utf8ByteSize.go]
  | cons c cs =>
    have hc := Char.utf8Size_pos c
    simp [len, String.utf8ByteSize, String.utf8ByteSize.go]
    constructor
    · omega
    · intro h
      have := congrArg String.data h
      simp at this

/-- The four ways `validateUpdateCat` can end: `(nil, nil)`, `(nil, ErrValidation)`,
a nil-pointer panic, or a non-nil command next to `ErrValidation`; in the
last case the command holds the two IDs and the name, and nothing else. -/
theorem validateUpdateCat_cases (E : Entity) (req : UpdateCatRequest) :
    validateUpdateCat E req = .returned (none, none) ∨
    validateUpdateCat E req = .returned (none, some .ErrValidation) ∨
    validateUpdateCat E req = .fault .nilDereference ∨
    (∃ cmd, validateUpdateCat E req = .returned (some cmd, some .ErrValidation) ∧
        cmd.ID = req.ID ∧ cmd.UserID = req.UserID ∧ cmd.Name = req.Name ∧
        cmd.Sex = none ∧ cmd.Race = none ∧ cmd.ImageUrls = none ∧ cmd.Age = none ∧
        cmd.Description = none) := by
  obtain ⟨id, uid, name, sex, race, imgs, age, desc⟩ := req
  unfold validateUpdateCat
  rcases name with _ | name <;> rcases sex with _ | sex <;> rcases race with _ | race <;>
    rcases desc with _ | desc <;> simp [storeThrough, InputUpdateCat.zero, bind, pure]
  all_goals (try split)
  all_goals (try split)
  all_goals (try simp)
  all_goals (try omega)

/-- The calls `UpdateCat` can make: whatever the request and the repository,
it makes no call at all or the single call `WithTransaction`, and it does not
return nil. -/
theorem UpdateCat_calls {E : Entity} {σ : Type} (repo : Repo E σ) (s : σ)
    (req : UpdateCatRequest) :
    ((UpdateCat repo s req).calls = [] ∨ (UpdateCat repo s req).calls = [.WithTransaction]) ∧
    (UpdateCat repo s req).outcome ≠ .returned none := by
  rcases validateUpdateCat_cases E req with h | h | h | ⟨cmd, h, _⟩
  · rcases hb : repo.WithTransaction s with ⟨_ | e, s1⟩ <;>
      simp [UpdateCat, UpdateCat.transact, h, hb, exitDeferred]
  · simp [UpdateCat, h]
  · simp [UpdateCat, h]
  · simp [UpdateCat, h]

/-- With a one-byte description `validateRegisterCat` returns `ErrValidation`
and no draft, whatever the other fields are. -/
theorem validateRegisterCat_one_byte_description (E : Entity) (req : CreateCatRequest)
    (h : len req.Description = 1) :
    validateRegisterCat E req = (none, some .ErrValidation) := by
  unfold validateRegisterCat
  repeat' split
  all_goals first | rfl | omega

/-- With a one-byte description `validateUpdateCat` never reports success: it
returns `ErrValidation` or panics. -/
theorem validateUpdateCat_one_byte_description (E : Entity) (req : UpdateCatRequest)
    (d : String) (hd : req.Description = some d) (h : len d = 1) :
    validateUpdateCat E req ≠ .returned (none, none) := by
  obtain ⟨id, uid, name, sex, race, imgs, age, desc⟩ := req
  simp only at hd
  subst hd
  unfold validateUpdateCat
  rcases name with _ | name <;> rcases sex with _ | sex <;> rcases race with _ | race <;>
    simp [storeThrough, InputUpdateCat.zero, bind, pure, h]
  all_goals (try split)
  all_goals (try split)
  all_goals (try simp)

/-- Lines 143-177 of `UpdateCat` on a non-nil command that sets the sex, with
one existing match: the conflict error is returned, and since the error of
the lookup block is a block-local variable, nothing is rolled back. -/
theorem UpdateCat_transact_conflict_without_rollback :
    (UpdateCat.transact (scriptedRepo oneMatch) 0 { emptyUpdate with Sex := some "male" }
        (some { InputUpdateCat.zero with ID := 7, UserID := 3, Sex := some "male" })).outcome =
      .returned (some .ErrEmailExists) ∧
    rollbacks
      (UpdateCat.transact (scriptedRepo oneMatch) 0 { emptyUpdate with Sex := some "male" }
        (some { InputUpdateCat.zero with ID := 7, UserID := 3, Sex := some "male" })).calls = 0 := by
  exact ⟨rfl, rfl⟩

set_option maxRecDepth 8000 in
/-- The boundary cases of create validation on the sample entity: names of 0
and 31 bytes are rejected, of 1 and 30 bytes accepted; descriptions of 1 and
201 bytes are rejected, of 2 and 200 bytes accepted; age 0 is rejected and age
1 accepted; no image URL is rejected and one accepted. -/
theorem validateRegisterCat_boundaries :
    validateRegisterCat sampleEntity { validCreate with Name := "" } =
      (none, some .ErrValidation) ∧
    validateRegisterCat sampleEntity { validCreate with Name := String.mk (List.replicate 31 'a') } =
      (none, some .ErrValidation) ∧
    (validateRegisterCat sampleEntity { validCreate with Name := "a" }).2 = none ∧
    (validateRegisterCat sampleEntity
      { validCreate with Name := String.mk (List.replicate 30 'a') }).2 = none ∧
    validateRegisterCat sampleEntity { validCreate with Description := "a" } =
      (none, some .ErrValidation) ∧
    validateRegisterCat sampleEntity
      { validCreate with Description := String.mk (List.replicate 201 'a') } =
      (none, some .ErrValidation) ∧
    (validateRegisterCat sampleEntity { validCreate with Description := "ab" }).2 = none ∧
    (validateRegisterCat sampleEntity
      { validCreate with Description := String.mk (List.replicate 200 'a') }).2 = none ∧
    validateRegisterCat sampleEntity { validCreate with AgeInMonth := 0 } =
      (none, some .ErrValidation) ∧
    (validateRegisterCat sampleEntity { validCreate with AgeInMonth := 1 }).2 = none ∧
    validateRegisterCat sampleEntity { validCreate with ImageUrls := some [] } =
      (none, some .ErrValidation) ∧
    validateRegisterCat sampleEntity { validCreate with ImageUrls := none } =
      (none, some .ErrValidation) ∧
    (validateRegisterCat sampleEntity validCreate).2 = none := by
  refine ⟨rfl, rfl, rfl, rfl, rfl, rfl, rfl, rfl, rfl, rfl, rfl, rfl, rfl⟩

/-! ### The filter parser, `strconv` and the response loop -/

/-- Step `limit` succeeds exactly when `strconv.Atoi` accepts the limit; it
then sets `Limit` and nothing else. -/
theorem parseFilterFindCat.limit_ok (req : FindCatRequest) (out out' : FilterFindCat) :
    parseFilterFindCat.limit req out = .ok out' ↔
      out' = { out with Limit := out'.Limit } ∧ strconv.Atoi req.Limit = .ok out'.Limit := by
  obtain ⟨a1, a2, a3, a4, a5, a6, a7, a8, a9⟩ := out
  obtain ⟨b1, b2, b3, b4, b5, b6, b7, b8, b9⟩ := out'
  unfold parseFilterFindCat.limit
  rcases strconv.Atoi req.Limit with e | v <;> simp
  constructor
  · rintro ⟨rfl, rfl, rfl, rfl, rfl, rfl, rfl, rfl, rfl⟩; simp
  · rintro ⟨⟨rfl, rfl, rfl, rfl, rfl, rfl, rfl, rfl⟩, rfl⟩; simp

/-- Step `offset` succeeds exactly when `strconv.Atoi` accepts the offset; it
then sets `Offset` and nothing else. -/
theorem parseFilterFindCat.offset_ok (req : FindCatRequest) (out out' : FilterFindCat) :
    parseFilterFindCat.offset req out = .ok out' ↔
      out' = { out with Offset := out'.Offset } ∧ strconv.Atoi req.Offset = .ok out'.Offset := by
  obtain ⟨a1, a2, a3, a4, a5, a6, a7, a8, a9⟩ := out
  obtain ⟨b1, b2, b3, b4, b5, b6, b7, b8, b9⟩ := out'
  unfold parseFilterFindCat.offset
  rcases strconv.Atoi req.Offset with e | v <;> simp
  constructor
  · rintro ⟨rfl, rfl, rfl, rfl, rfl, rfl, rfl, rfl, rfl⟩; simp
  · rintro ⟨⟨rfl, rfl, rfl, rfl, rfl, rfl, rfl, rfl⟩, rfl⟩; simp

/-- Step `hasMatched` changes `HasMatched` only: it leaves it when the key is
empty, and sets it to the parsed boolean when the key parses. -/
theorem parseFilterFindCat.hasMatched_ok (req : FindCatRequest) (out out' : FilterFindCat) :
    parseFilterFindCat.hasMatched req out = .ok out' ↔
      out' = { out with HasMatched := out'.HasMatched } ∧
      (req.HasMatched = "" ∧ out'.HasMatched = out.HasMatched ∨
        req.HasMatched ≠ "" ∧ ∃ b, strconv.ParseBool req.HasMatched = .ok b ∧
          out'.HasMatched = some b) := by
  obtain ⟨a1, a2, a3, a4, a5, a6, a7, a8, a9⟩ := out
  obtain ⟨b1, b2, b3, b4, b5, b6, b7, b8, b9⟩ := out'
  unfold parseFilterFindCat.hasMatched
  by_cases h : req.HasMatched = ""
  · simp [h]; tauto
  · rcases hb : strconv.ParseBool req.HasMatched with e | v <;> simp [h]
    constructor
    · rintro ⟨rfl, rfl, rfl, rfl, rfl, rfl, rfl, rfl, rfl⟩; simp
    · rintro ⟨⟨rfl, rfl, rfl, rfl, rfl, rfl, rfl, rfl⟩, rfl⟩; simp

/-- Step `owned` changes `UserID` only: it leaves it when the key is empty or
parses as false, and sets it to the ID of the caller when the key parses as
true. -/
theorem parseFilterFindCat.owned_ok (req : FindCatRequest) (out out' : FilterFindCat) :
    parseFilterFindCat.owned req out = .ok out' ↔
      out' = { out with UserID := out'.UserID } ∧
      (req.Owned = "" ∧ out'.UserID = out.UserID ∨
        req.Owned ≠ "" ∧ strconv.ParseBool req.Owned = .ok false ∧
          out'.UserID = out.UserID ∨
        req.Owned ≠ "" ∧ strconv.ParseBool req.Owned = .ok true ∧
          out'.UserID = some req.UserId) := by
  obtain ⟨a1, a2, a3, a4, a5, a6, a7, a8, a9⟩ := out
  obtain ⟨b1, b2, b3, b4, b5, b6, b7, b8, b9⟩ := out'
  unfold parseFilterFindCat.owned
  by_cases h : req.Owned = ""
  · simp [h]; tauto
  · rcases hb : strconv.ParseBool req.Owned with e | v
    · simp [h]
    · cases v <;> simp [h] <;> tauto

/-- Step `sex` changes `Sex` only: it leaves it when the key is empty, and sets
it to the key when the sex parser accepts the key. -/
theorem parseFilterFindCat.sex_ok (E : Entity) (req : FindCatRequest)
    (out out' : FilterFindCat) :
    parseFilterFindCat.sex E req out = .ok out' ↔
      out' = { out with Sex := out'.Sex } ∧
      (req.Sex = "" ∧ out'.Sex = out.Sex ∨
        req.Sex ≠ "" ∧ (∃ v, E.StringToSex req.Sex = .ok v) ∧ out'.Sex = some req.Sex) := by
  obtain ⟨a1, a2, a3, a4, a5, a6, a7, a8, a9⟩ := out
  obtain ⟨b1, b2, b3, b4, b5, b6, b7, b8, b9⟩ := out'
  unfold parseFilterFindCat.sex
  by_cases h : req.Sex = ""
  · simp [h]; tauto
  · rcases hb : E.StringToSex req.Sex with e | v
    · simp [h]
    · simp [h]
      tauto

/-- Step `race` changes `Race` only: it leaves it when the key is empty, and
sets it to the key when the race parser accepts the key. -/
theorem parseFilterFindCat.race_ok (E : Entity) (req : FindCatRequest)
    (out out' : FilterFindCat) :
    parseFilterFindCat.race E req out = .ok out' ↔
      out' = { out with Race := out'.Race } ∧
      (req.Race = "" ∧ out'.Race = out.Race ∨
        req.Race ≠ "" ∧ (∃ v, E.StringToRace req.Race = .ok v) ∧
          out'.Race = some req.Race) := by
  obtain ⟨a1, a2, a3, a4, a5, a6, a7, a8, a9⟩ := out
  obtain ⟨b1, b2, b3, b4, b5, b6, b7, b8, b9⟩ := out'
  unfold parseFilterFindCat.race
  by_cases h : req.Race = ""
  · simp [h]; tauto
  · rcases hb : E.StringToRace req.Race with e | v
    · simp [h]
    · simp [h]
      tauto

/-- Step `id` changes `ID` only: it leaves it when the key is empty, and sets
it to the one-element list of the parsed number when the key parses. -/
theorem parseFilterFindCat.id_ok (req : FindCatRequest) (out out' : FilterFindCat) :
    parseFilterFindCat.id req out = .ok out' ↔
      out' = { out with ID := out'.ID } ∧
      (req.ID = "" ∧ out'.ID = out.ID ∨
        req.ID ≠ "" ∧ ∃ n, strconv.ParseUint req.ID = .ok n ∧ out'.ID = some [n]) := by
  obtain ⟨a1, a2, a3, a4, a5, a6, a7, a8, a9⟩ := out
  obtain ⟨b1, b2, b3, b4, b5, b6, b7, b8, b9⟩ := out'
  unfold parseFilterFindCat.id
  by_cases h : req.ID = ""
  · simp [h]; tauto
  · rcases hb : strconv.ParseUint req.ID with e | v
    · simp [h]
    · simp [h]
      tauto

/-- Step `searchName` never fails and changes `SearchName` only. -/
theorem parseFilterFindCat.searchName_ok (req : FindCatRequest) (out out' : FilterFindCat) :
    parseFilterFindCat.searchName req out = .ok out' ↔
      out' = { out with SearchName := out'.SearchName } ∧
      (req.SearchName = "" ∧ out'.SearchName = out.SearchName ∨
        req.SearchName ≠ "" ∧ out'.SearchName = some req.SearchName) := by
  obtain ⟨a1, a2, a3, a4, a5, a6, a7, a8, a9⟩ := out
  obtain ⟨b1, b2, b3, b4, b5, b6, b7, b8, b9⟩ := out'
  unfold parseFilterFindCat.searchName
  by_cases h : req.SearchName = "" <;> simp [h] <;> tauto

/-- Step `age` changes `Age` only: it leaves it when the key is empty, and sets
it to the key when the key is one of the three tokens. -/
theorem parseFilterFindCat.age_ok (req : FindCatRequest) (out out' : FilterFindCat) :
    parseFilterFindCat.age req out = .ok out' ↔
      out' = { out with Age := out'.Age } ∧
      (req.Age = "" ∧ out'.Age = out.Age ∨
        (req.Age = ">4" ∨ req.Age = "<4" ∨ req.Age = "4") ∧ out'.Age = some req.Age) := by
  obtain ⟨a1, a2, a3, a4, a5, a6, a7, a8, a9⟩ := out
  obtain ⟨b1, b2, b3, b4, b5, b6, b7, b8, b9⟩ := out'
  unfold parseFilterFindCat.age
  by_cases h : req.Age = ""
  · simp [h]; tauto
  · by_cases h2 : req.Age = ">4" ∨ req.Age = "<4" ∨ req.Age = "4"
    · have : ([">4", "<4", "4"].any fun v => decide (req.Age = v)) = true := by
        rcases h2 with h2 | h2 | h2 <;> simp [h2]
      simp [h, this, h2]; tauto
    · have : ¬ ([">4", "<4", "4"].any fun v => decide (req.Age = v)) = true := by
        simp; tauto
      simp [h, this, h2]

/-- Step `age` fails only with `ErrValidation`, and only on a non-empty key
that is none of the three tokens. -/
theorem parseFilterFindCat.age_error (req : FindCatRequest) (out : FilterFindCat)
    (err : GoError) :
    parseFilterFindCat.age req out = .error err ↔
      err = .ErrValidation ∧ req.Age ≠ "" ∧ req.Age ≠ ">4" ∧ req.Age ≠ "<4" ∧ req.Age ≠ "4" := by
  unfold parseFilterFindCat.age
  by_cases h : req.Age = ""
  · simp [h]
  · by_cases h2 : req.Age = ">4" ∨ req.Age = "<4" ∨ req.Age = "4"
    · have : ([">4", "<4", "4"].any fun v => decide (req.Age = v)) = true := by
        rcases h2 with h2 | h2 | h2 <;> simp [h2]
      simp [h, this]; tauto
    · have : ¬ ([">4", "<4", "4"].any fun v => decide (req.Age = v)) = true := by
        simp; tauto
      simp [h, this]
      constructor
      · intro h3; exact ⟨h3.symm, by tauto⟩
      · intro h3; exact h3.1.symm

/-- What a successful run of the statements of `parseFilterFindCat` says about
the filter it ends with, key by key. -/
theorem parseFilterFindCat.run_ok (E : Entity) (req : FindCatRequest) (flt : FilterFindCat)
    (h : parseFilterFindCat.run E req = .ok flt) :
    strconv.Atoi req.Limit = .ok flt.Limit ∧
    strconv.Atoi req.Offset = .ok flt.Offset ∧
    (req.HasMatched = "" ∧ flt.HasMatched = none ∨
      req.HasMatched ≠ "" ∧ ∃ b, strconv.ParseBool req.HasMatched = .ok b ∧
        flt.HasMatched = some b) ∧
    (req.Owned = "" ∧ flt.UserID = none ∨
      req.Owned ≠ "" ∧ strconv.ParseBool req.Owned = .ok false ∧ flt.UserID = none ∨
      req.Owned ≠ "" ∧ strconv.ParseBool req.Owned = .ok true ∧
        flt.UserID = some req.UserId) ∧
    (req.Sex = "" ∧ flt.Sex = none ∨
      req.Sex ≠ "" ∧ (∃ v, E.StringToSex req.Sex = .ok v) ∧ flt.Sex = some req.Sex) ∧
    (req.Race = "" ∧ flt.Race = none ∨
      req.Race ≠ "" ∧ (∃ v, E.StringToRace req.Race = .ok v) ∧ flt.Race = some req.Race) ∧
    (req.ID = "" ∧ flt.ID = none ∨
      req.ID ≠ "" ∧ ∃ n, strconv.ParseUint req.ID = .ok n ∧ flt.ID = some [n]) ∧
    (req.SearchName = "" ∧ flt.SearchName = none ∨
      req.SearchName ≠ "" ∧ flt.SearchName = some req.SearchName) ∧
    (req.Age = "" ∧ flt.Age = none ∨
      (req.Age = ">4" ∨ req.Age = "<4" ∨ req.Age = "4") ∧ flt.Age = some req.Age) := by
  simp only [parseFilterFindCat.run, bind, Except.bind] at h
  rcases h1 : parseFilterFindCat.limit req FilterFindCat.zero with e | o1
  · simp [h1] at h
  rcases h2 : parseFilterFindCat.offset req o1 with e | o2
  · simp [h1, h2] at h
  rcases h3 : parseFilterFindCat.hasMatched req o2 with e | o3
  · simp [h1, h2, h3] at h
  rcases h4 : parseFilterFindCat.owned req o3 with e | o4
  · simp [h1, h2, h3, h4] at h
  rcases h5 : parseFilterFindCat.sex E req o4 with e | o5
  · simp [h1, h2, h3, h4, h5] at h
  rcases h6 : parseFilterFindCat.race E req o5 with e | o6
  · simp [h1, h2, h3, h4, h5, h6] at h
  rcases h7 : parseFilterFindCat.id req o6 with e | o7
  · simp [h1, h2, h3, h4, h5, h6, h7] at h
  rcases h8 : parseFilterFindCat.searchName req o7 with e | o8
  · simp [h1, h2, h3, h4, h5, h6, h7, h8] at h
  simp only [h1, h2, h3, h4, h5, h6, h7, h8] at h
  obtain ⟨e1, p1⟩ := (parseFilterFindCat.limit_ok req _ _).1 h1
  obtain ⟨e2, p2⟩ := (parseFilterFindCat.offset_ok req _ _).1 h2
  obtain ⟨e3, p3⟩ := (parseFilterFindCat.hasMatched_ok req _ _).1 h3
  obtain ⟨e4, p4⟩ := (parseFilterFindCat.owned_ok req _ _).1 h4
  obtain ⟨e5, p5⟩ := (parseFilterFindCat.sex_ok E req _ _).1 h5
  obtain ⟨e6, p6⟩ := (parseFilterFindCat.race_ok E req _ _).1 h6
  obtain ⟨e7, p7⟩ := (parseFilterFindCat.id_ok req _ _).1 h7
  obtain ⟨e8, p8⟩ := (parseFilterFindCat.searchName_ok req _ _).1 h8
  obtain ⟨e9, p9⟩ := (parseFilterFindCat.age_ok req _ _).1 h
  have q1 : o1.HasMatched = none ∧ o1.UserID = none ∧ o1.Sex = none ∧ o1.Race = none ∧
      o1.ID = none ∧ o1.SearchName = none ∧ o1.Age = none := by
    rw [e1]; simp [FilterFindCat.zero]
  have q2 : o2.Limit = o1.Limit ∧ o2.HasMatched = none ∧ o2.UserID = none ∧ o2.Sex = none ∧
      o2.Race = none ∧ o2.ID = none ∧ o2.SearchName = none ∧ o2.Age = none := by
    rw [e2]; simp [q1]
  have q3 : o3.Limit = o1.Limit ∧ o3.Offset = o2.Offset ∧ o3.UserID = none ∧ o3.Sex = none ∧
      o3.Race = none ∧ o3.ID = none ∧ o3.SearchName = none ∧ o3.Age = none := by
    rw [e3]; simp [q2]
  have q4 : o4.Limit = o1.Limit ∧ o4.Offset = o2.Offset ∧ o4.HasMatched = o3.HasMatched ∧
      o4.Sex = none ∧ o4.Race = none ∧ o4.ID = none ∧ o4.SearchName = none ∧ o4.Age = none := by
    rw [e4]; simp [q3]
  have q5 : o5.Limit = o1.Limit ∧ o5.Offset = o2.Offset ∧ o5.HasMatched = o3.HasMatched ∧
      o5.UserID = o4.UserID ∧ o5.Race = none ∧ o5.ID = none ∧ o5.SearchName = none ∧
      o5.Age = none := by
    rw [e5]; simp [q4]
  have q6 : o6.Limit = o1.Limit ∧ o6.Offset = o2.Offset ∧ o6.HasMatched = o3.HasMatched ∧
      o6.UserID = o4.UserID ∧ o6.Sex = o5.Sex ∧ o6.ID = none ∧ o6.SearchName = none ∧
      o6.Age = none := by
    rw [e6]; simp [q5]
  have q7 : o7.Limit = o1.Limit ∧ o7.Offset = o2.Offset ∧ o7.HasMatched = o3.HasMatched ∧
      o7.UserID = o4.UserID ∧ o7.Sex = o5.Sex ∧ o7.Race = o6.Race ∧ o7.SearchName = none ∧
      o7.Age = none := by
    rw [e7]; simp [q6]
  have q8 : o8.Limit = o1.Limit ∧ o8.Offset = o2.Offset ∧ o8.HasMatched = o3.HasMatched ∧
      o8.UserID = o4.UserID ∧ o8.Sex = o5.Sex ∧ o8.Race = o6.Race ∧ o8.ID = o7.ID ∧
      o8.Age = none := by
    rw [e8]; simp [q7]
  have q9 : flt.Limit = o1.Limit ∧ flt.Offset = o2.Offset ∧ flt.HasMatched = o3.HasMatched ∧
      flt.UserID = o4.UserID ∧ flt.Sex = o5.Sex ∧ flt.Race = o6.Race ∧ flt.ID = o7.ID ∧
      flt.SearchName = o8.SearchName := by
    rw [e9]; simp [q8]
  obtain ⟨r1, r2, r3, r4, r5, r6, r7, r8⟩ := q9
  rw [r1, r2, r3, r4, r5, r6, r7, r8]
  rw [q2.2.1] at p3
  rw [q3.2.2.1] at p4
  rw [q4.2.2.2.1] at p5
  rw [q5.2.2.2.2.1] at p6
  rw [q6.2.2.2.2.2.1] at p7
  rw [q7.2.2.2.2.2.2.1] at p8
  rw [q8.2.2.2.2.2.2.2] at p9
  exact ⟨p1, p2, p3, p4, p5, p6, p7, p8, p9⟩

/-- The result pair of `parseFilterFindCat` is a filter without an error
exactly when the run of its statements ends with that filter. -/
theorem parseFilterFindCat_eq_ok (E : Entity) (req : FindCatRequest) (flt : FilterFindCat) :
    parseFilterFindCat E req = (some flt, none) ↔ parseFilterFindCat.run E req = .ok flt := by
  unfold parseFilterFindCat
  rcases parseFilterFindCat.run E req with e | o <;> simp

/-- Every error of `strconv.Atoi` is a `NumError`, never `ErrValidation`. -/
theorem strconv.Atoi_error (s : String) (err : GoError) (h : strconv.Atoi s = .error err) :
    err ≠ .ErrValidation := by
  unfold strconv.Atoi strconv.atoiMagnitude at h
  intro hv
  subst hv
  repeat' split at h
  all_goals simp [strconv.syntaxError, strconv.rangeError] at h

/-- The digit loop accepts a list of characters only if all are decimal digits. -/
theorem strconv.digits_ok (ds : List Char) (n m : Nat) (h : strconv.digits ds n = .ok m) :
    ds.all Char.isDigit = true := by
  induction ds generalizing n with
  | nil => rfl
  | cons c cs ih =>
    unfold strconv.digits at h
    split at h
    · rename_i hc
      split at h
      · simp at h
      · split at h
        · simp at h
        · have := ih _ h
          simp only [List.all_cons, this, Bool.and_true]
          simp only [Char.isDigit, Bool.and_eq_true, decide_eq_true_eq]
          exact hc
    · simp at h

/-- Whatever `strconv.Atoi` accepts is a decimal integer string: an optional
sign and one or more decimal digits. -/
theorem strconv.Atoi_ok (s : String) (n : Int) (h : strconv.Atoi s = .ok n) :
    isDecimalInteger s = true := by
  unfold strconv.Atoi at h
  unfold isDecimalInteger
  rcases hd : s.data with _ | ⟨c, cs⟩
  · simp [hd] at h
  · simp only [hd] at h ⊢
    have key : ∀ (neg : Bool) (ds : List Char),
        strconv.atoiMagnitude s neg ds = .ok n → ds ≠ [] ∧ ds.all Char.isDigit = true := by
      intro neg ds hm
      unfold strconv.atoiMagnitude at hm
      split at hm
      · simp at hm
      · rename_i hne
        refine ⟨hne, ?_⟩
        rcases hg : strconv.digits ds 0 with b | un
        · cases b <;> simp [hg] at hm
        · exact strconv.digits_ok ds 0 un hg
    by_cases hp : c = '+'
    · simp only [hp, if_true] at h
      obtain ⟨h1, h2⟩ := key _ _ h
      cases cs with
      | nil => exact absurd rfl h1
      | cons d ds => simp [hp, h2] 
    · by_cases hm : c = '-'
      · simp only [hm, if_true] at h
        have h' : strconv.atoiMagnitude s true cs = .ok n := by
          simpa using h
        obtain ⟨h1, h2⟩ := key _ _ h'
        cases cs with
        | nil => exact absurd rfl h1
        | cons d ds => simp [hm, h2]
      · simp only [hp, hm, if_false] at h
        obtain ⟨_, h2⟩ := key _ _ h
        simp [hp, hm, h2]

/-- A rejected create request gets `ErrValidation` and no draft. -/
theorem validateRegisterCat_error (E : Entity) (req : CreateCatRequest)
    (h : (validateRegisterCat E req).2 ≠ none) :
    validateRegisterCat E req = (none, some .ErrValidation) := by
  revert h
  unfold validateRegisterCat
  repeat' split
  all_goals simp

/-- The loop of `FindCat` that appends one response per cat to `resp`: from a
slice `init` it gives `init` itself for no cat, and otherwise the elements of
`init` followed by the responses, in order. -/
theorem goAppend_foldl {α β : Type} (f : α → β) (xs : List α) (init : Option (List β)) :
    (xs.foldl (fun resp x => goAppend resp (f x)) init).getD [] = init.getD [] ++ xs.map f ∧
    (xs = [] → xs.foldl (fun resp x => goAppend resp (f x)) init = init) := by
  induction xs generalizing init with
  | nil => simp
  | cons x xs ih =>
    refine ⟨?_, by simp⟩
    rw [List.foldl_cons, (ih _).1]
    cases init <;> simp [goAppend]

/-- For every valid create request and every caller ID `userId`, once the
transaction is begun `CreateCat` hands the repository insert exactly one
listing, whose owner is the `UserID` carried in the request payload, whatever
the argument `userId` is. -/
theorem CreateCat_owner_from_request {E : Entity} {σ : Type} (repo : Repo E σ) (s : σ)
    (req : CreateCatRequest) (userId : Nat)
    (hv : (validateRegisterCat E req).2 = none)
    (hb : (repo.WithTransaction s).1 = none) :
    (insertedCats (CreateCat repo s req userId).calls).map (fun cat => cat.UserID) =
      [req.UserID] := by
  have hd : ∃ cat, validateRegisterCat E req = (some cat, none) ∧ cat.UserID = req.UserID := by
    revert hv
    unfold validateRegisterCat
    repeat' split
    all_goals simp
  obtain ⟨cat, hc, hu⟩ := hd
  rcases hw : repo.WithTransaction s with ⟨e, s1⟩
  rw [hw] at hb
  simp only at hb
  subst hb
  unfold CreateCat
  simp only [hc, hw]
  rcases hi : repo.CreateCat (some cat) s1 with ⟨⟨catId, _ | e⟩, s2⟩
  · simp only []
    rcases hf : repo.FindCat (some { FilterFindCat.zero with ID := some [catId] })
        (repo.Commit s2).2 with ⟨⟨cats, _ | e⟩, s4⟩
    · cases cats <;> simp [exitDeferred, insertedCats, hu]
    · simp [exitDeferred, insertedCats, hu]
  · simp [exitDeferred, insertedCats, hu]

/-! ## Theorems -/

/-- C1: `validateRegisterCat` returns no error exactly when the name has 1 to
30 bytes, the sex is non-empty and parses, the race is non-empty and parses,
the age is positive, the description has 2 to 200 bytes and there is at least
one image URL; then it returns the draft built from the request, and in every
other case it returns `ErrValidation` and no draft. -/
theorem validateRegisterCat_contract (E : Entity) (req : CreateCatRequest) :
    ((validateRegisterCat E req).2 = none ↔
      (1 ≤ len req.Name ∧ len req.Name ≤ 30 ∧
       req.Sex ≠ "" ∧ (∃ tSex, E.StringToSex req.Sex = .ok tSex) ∧
       req.Race ≠ "" ∧ (∃ tRace, E.StringToRace req.Race = .ok tRace) ∧
       0 < req.AgeInMonth ∧
       2 ≤ len req.Description ∧ len req.Description ≤ 200 ∧
       0 < sliceLen req.ImageUrls)) ∧
    ((∃ tSex tRace, E.StringToSex req.Sex = .ok tSex ∧ E.StringToRace req.Race = .ok tRace ∧
        validateRegisterCat E req =
          (some { ID := 0, UserID := req.UserID, Name := req.Name, Sex := tSex, Race := tRace,
                  ImageUrls := req.ImageUrls, Age := req.AgeInMonth,
                  Description := req.Description, HasMatched := false,
                  CreatedAt := E.zeroTime }, none)) ∨
      validateRegisterCat E req = (none, some .ErrValidation)) := by
  have hsx := len_eq_zero_iff req.Sex
  have hrc := len_eq_zero_iff req.Race
  unfold validateRegisterCat
  by_cases h1 : len req.Name < 1 ∨ len req.Name > 30
  · simp only [h1, if_true]; simp; omega
  by_cases h2 : len req.Sex = 0
  · simp only [h1, h2, if_true, if_false]; simp; intro _ _ h; exact absurd (hsx.1 h2) h
  rcases hs : E.StringToSex req.Sex with e | tSex
  · simp [h1, h2]
  by_cases h3 : len req.Race = 0
  · simp only [h1, h2, h3, if_true, if_false]; simp; intro _ _ _ h; exact absurd (hrc.1 h3) h
  rcases hr : E.StringToRace req.Race with e | tRace
  · simp [h1, h2, h3]
  by_cases h4 : req.AgeInMonth ≤ 0
  · simp [h1, h2, h3, h4]
  by_cases h5 : len req.Description ≤ 1 ∨ len req.Description > 200
  · simp only [h1, h2, h3, h4, h5, if_true, if_false]; simp; intro _ _ _ _ _ ; omega
  by_cases h6 : sliceLen req.ImageUrls ≤ 0
  · simp only [h1, h2, h3, h4, h5, h6, if_true, if_false]; simp; intro _ _ _ _ _ _ _; omega
  simp only [h1, h2, h3, h4, h5, h6, if_true, if_false]
  have h2' : req.Sex ≠ "" := fun h => h2 (hsx.2 h)
  have h3' : req.Race ≠ "" := fun h => h3 (hrc.2 h)
  simp [h2', h3']
  omega

/-- C2: on the update request that supplies only the valid name `Tom`,
`validateUpdateCat` returns `(nil, nil)`: no error, and no command either, so
neither the ID nor the name is carried; and on no request at all does it
return a command without an error. -/
theorem validateUpdateCat_returns_no_command (E : Entity) :
    validateUpdateCat E { emptyUpdate with Name := some "Tom" } = .returned (none, none) ∧
    ∀ (req : UpdateCatRequest) (cmd : InputUpdateCat),
      validateUpdateCat E req ≠ .returned (some cmd, none) := by
  refine ⟨rfl, fun req cmd h => ?_⟩
  rcases validateUpdateCat_cases E req with h1 | h1 | h1 | ⟨c, h1, _⟩ <;>
    simp [h1] at h

/-- C3: on the update request that supplies the valid name `Tom` and the
unparseable sex `xx`, `validateUpdateCat` returns `ErrValidation` together
with a non-nil command that holds the ID, the user ID and the name. -/
theorem validateUpdateCat_bad_sex_returns_command :
    validateUpdateCat sampleEntity { emptyUpdate with Name := some "Tom", Sex := some "xx" } =
      .returned
        (some { ID := 7, UserID := 3, Name := some "Tom", Sex := none, Race := none,
                ImageUrls := none, Age := none, Description := none },
         some .ErrValidation) := by
  decide

/-- C4: on the valid update request that supplies only the name `Tom`, with a
repository on which every call succeeds, `UpdateCat` begins the transaction and
then panics on a nil pointer; it never calls the repository write and never
commits. For every request and every repository, `UpdateCat` makes no
repository write and does not return nil. -/
theorem UpdateCat_valid_request_faults :
    (UpdateCat (scriptedRepo allSucceed) 0 { emptyUpdate with Name := some "Tom" }).outcome =
      .fault .nilDereference ∧
    updateWrites
      (UpdateCat (scriptedRepo allSucceed) 0 { emptyUpdate with Name := some "Tom" }).calls = 0 ∧
    ∀ (E : Entity) (σ : Type) (repo : Repo E σ) (s : σ) (req : UpdateCatRequest),
      updateWrites (UpdateCat repo s req).calls = 0 ∧
      (UpdateCat repo s req).outcome ≠ .returned none := by
  refine ⟨rfl, rfl, fun E σ repo s req => ?_⟩
  obtain ⟨hc, ho⟩ := UpdateCat_calls repo s req
  refine ⟨?_, ho⟩
  rcases hc with hc | hc <;> rw [hc] <;> rfl

/-- C5: on the update request that supplies the valid sex `male`, with a
repository whose match lookup returns one match, `UpdateCat` panics on a nil
pointer inside validation, before any repository call; it does not return the
conflict error. -/
theorem UpdateCat_sex_change_faults :
    (UpdateCat (scriptedRepo oneMatch) 0
        { emptyUpdate with Sex := some "male" }).outcome = .fault .nilDereference ∧
    (UpdateCat (scriptedRepo oneMatch) 0
        { emptyUpdate with Sex := some "male" }).calls = [] := by
  exact ⟨rfl, rfl⟩

/-- C6: the one-byte name `a` is rejected with `ErrValidation` by
`validateUpdateCat`, while `validateRegisterCat` accepts it. -/
theorem validateUpdateCat_rejects_one_byte_name :
    validateUpdateCat sampleEntity { emptyUpdate with Name := some "a" } =
      .returned (none, some .ErrValidation) ∧
    (validateRegisterCat sampleEntity { validCreate with Name := "a" }).2 = none := by
  exact ⟨rfl, rfl⟩

/-- C7: on the update requests that supply only the age 0, or only the age
-5, `validateUpdateCat` returns no error. -/
theorem validateUpdateCat_accepts_nonpositive_age (E : Entity) :
    validateUpdateCat E { emptyUpdate with AgeInMonth := some 0 } = .returned (none, none) ∧
    validateUpdateCat E { emptyUpdate with AgeInMonth := some (-5) } = .returned (none, none) := by
  exact ⟨rfl, rfl⟩

/-- C8: on the update request that supplies the valid sex `male` and the
one-byte description `a`, `validateUpdateCat` panics on a nil pointer instead
of returning `ErrValidation`. -/
theorem validateUpdateCat_short_description_faults :
    validateUpdateCat sampleEntity
        { emptyUpdate with Sex := some "male", Description := some "a" } =
      .fault .nilDereference := by
  decide

/-- C9: on a valid create request, with a repository whose insert succeeds and
whose re-fetch fails, `CreateCat` performs two terminal actions on the
transaction: it commits, and then, on the failed re-fetch, it rolls back. -/
theorem CreateCat_refetch_failure_rolls_back_after_commit :
    (CreateCat (scriptedRepo refetchFails) 0 validCreate 3).outcome =
      .returned (none, some (.other "read failed")) ∧
    commits (CreateCat (scriptedRepo refetchFails) 0 validCreate 3).calls = 1 ∧
    rollbacks (CreateCat (scriptedRepo refetchFails) 0 validCreate 3).calls = 1 := by
  exact ⟨rfl, rfl, rfl⟩

/-- C10: on the valid update request that supplies only the name `Tom`, with a
repository on which every call succeeds, `UpdateCat` begins the transaction and
panics without committing or rolling back. For every request and every
repository, `UpdateCat` performs no terminal action at all. -/
theorem UpdateCat_no_terminal_action :
    (UpdateCat (scriptedRepo allSucceed) 0 { emptyUpdate with Name := some "Tom" }).calls =
      [.WithTransaction] ∧
    ∀ (E : Entity) (σ : Type) (repo : Repo E σ) (s : σ) (req : UpdateCatRequest),
      commits (UpdateCat repo s req).calls = 0 ∧ rollbacks (UpdateCat repo s req).calls = 0 := by
  refine ⟨rfl, fun E σ repo s req => ?_⟩
  rcases (UpdateCat_calls repo s req).1 with hc | hc <;> rw [hc] <;> exact ⟨rfl, rfl⟩

/-- C11: `DeleteCat` begins one transaction and passes `catId` and `userId` to
the repository delete. If the transaction cannot be begun it returns that
error and calls nothing else; if the delete fails it rolls back once, never
commits, and returns the error of the delete unchanged; if the delete succeeds
it commits once, never rolls back, and returns nil. In each case the
repository is left in the state that exactly these calls produce: the state
after the failed begin, the state after the rollback applied to the state the
delete left, or the state after the commit applied to the state the delete
left. -/
theorem DeleteCat_contract {E : Entity} {σ : Type} (repo : Repo E σ) (s : σ)
    (catId userId : Nat) :
    (∀ err s1, repo.WithTransaction s = (some err, s1) →
      (DeleteCat repo s catId userId).outcome = .returned (some err) ∧
      (DeleteCat repo s catId userId).calls = [.WithTransaction] ∧
      (DeleteCat repo s catId userId).state = s1) ∧
    (∀ s1 err s2, repo.WithTransaction s = (none, s1) →
      repo.DeleteCat catId userId s1 = (some err, s2) →
      (DeleteCat repo s catId userId).outcome = .returned (some err) ∧
      (DeleteCat repo s catId userId).calls =
        [.WithTransaction, .DeleteCat catId userId, .Rollback] ∧
      commits (DeleteCat repo s catId userId).calls = 0 ∧
      rollbacks (DeleteCat repo s catId userId).calls = 1 ∧
      (DeleteCat repo s catId userId).state = (repo.Rollback s2).2) ∧
    (∀ s1 s2, repo.WithTransaction s = (none, s1) →
      repo.DeleteCat catId userId s1 = (none, s2) →
      (DeleteCat repo s catId userId).outcome = .returned none ∧
      (DeleteCat repo s catId userId).calls =
        [.WithTransaction, .DeleteCat catId userId, .Commit] ∧
      commits (DeleteCat repo s catId userId).calls = 1 ∧
      rollbacks (DeleteCat repo s catId userId).calls = 0 ∧
      (DeleteCat repo s catId userId).state = (repo.Commit s2).2) := by
  refine ⟨fun err s1 hb => ?_, fun s1 err s2 hb hd => ?_, fun s1 s2 hb hd => ?_⟩
  · simp [DeleteCat, hb]
  · simp [DeleteCat, hb, hd, exitDeferred, commits, rollbacks, Call.isCommit, Call.isRollback]
  · simp [DeleteCat, hb, hd, exitDeferred, commits, rollbacks, Call.isCommit, Call.isRollback]

/-- Witness of C11 on the tracing repository, which records what is applied
to it: a transaction that cannot be begun, a failing delete and a successful
delete of cat 1 by user 3. -/
theorem DeleteCat_contract_witness :
    ((DeleteCat (tracingRepo beginFails) [] 1 3).outcome =
        .returned (some (.other "no connection")) ∧
      (DeleteCat (tracingRepo beginFails) [] 1 3).calls = [.WithTransaction] ∧
      (DeleteCat (tracingRepo beginFails) [] 1 3).state = ["WithTransaction"]) ∧
    ((DeleteCat (tracingRepo deleteFails) [] 1 3).outcome =
        .returned (some (.other "delete failed")) ∧
      (DeleteCat (tracingRepo deleteFails) [] 1 3).calls =
        [.WithTransaction, .DeleteCat 1 3, .Rollback] ∧
      commits (DeleteCat (tracingRepo deleteFails) [] 1 3).calls = 0 ∧
      rollbacks (DeleteCat (tracingRepo deleteFails) [] 1 3).calls = 1 ∧
      (DeleteCat (tracingRepo deleteFails) [] 1 3).state =
        ["WithTransaction", "DeleteCat", "Rollback"]) ∧
    ((DeleteCat (tracingRepo allSucceed) [] 1 3).outcome = .returned none ∧
      (DeleteCat (tracingRepo allSucceed) [] 1 3).calls =
        [.WithTransaction, .DeleteCat 1 3, .Commit] ∧
      commits (DeleteCat (tracingRepo allSucceed) [] 1 3).calls = 1 ∧
      rollbacks (DeleteCat (tracingRepo allSucceed) [] 1 3).calls = 0 ∧
      (DeleteCat (tracingRepo allSucceed) [] 1 3).state =
        ["WithTransaction", "DeleteCat", "Commit"]) :=
  ⟨(DeleteCat_contract (tracingRepo beginFails) [] 1 3).1 _ _ rfl,
   (DeleteCat_contract (tracingRepo deleteFails) [] 1 3).2.1 _ _ _ rfl rfl,
   (DeleteCat_contract (tracingRepo allSucceed) [] 1 3).2.2 _ _ rfl rfl⟩

/-- C12: when `validateRegisterCat` rejects the request, `CreateCat` returns
`ErrValidation` and no response, makes no call on the repository and leaves
its state as it was. -/
theorem CreateCat_rejected_request {E : Entity} {σ : Type} (repo : Repo E σ) (s : σ)
    (req : CreateCatRequest) (userId : Nat)
    (h : (validateRegisterCat E req).2 ≠ none) :
    (CreateCat repo s req userId).outcome = .returned (none, some .ErrValidation) ∧
    (CreateCat repo s req userId).calls = [] ∧
    (CreateCat repo s req userId).state = s := by
  have hv := validateRegisterCat_error E req h
  simp [CreateCat, hv]

/-- Witness of C12: the create request with an empty name. -/
theorem CreateCat_rejected_request_witness :
    (validateRegisterCat sampleEntity { validCreate with Name := "" }).2 ≠ none ∧
    (CreateCat (scriptedRepo allSucceed) 0 { validCreate with Name := "" } 3).outcome =
      .returned (none, some .ErrValidation) ∧
    (CreateCat (scriptedRepo allSucceed) 0 { validCreate with Name := "" } 3).calls = [] ∧
    (CreateCat (scriptedRepo allSucceed) 0 { validCreate with Name := "" } 3).state = 0 :=
  ⟨by decide,
   CreateCat_rejected_request (scriptedRepo allSucceed) 0 { validCreate with Name := "" } 3
     (by decide)⟩

/-- C13, as stated, fails: with a repository whose `tx.Commit()` returns an
error while every other call succeeds, `DeleteCat` commits once and returns
nil, and `CreateCat` commits once and returns the response without an error. -/
theorem commit_error_reported_as_success :
    ((scriptedRepo commitFails).Commit 2).1 = some (.other "commit failed") ∧
    commits (DeleteCat (scriptedRepo commitFails) 0 1 3).calls = 1 ∧
    (DeleteCat (scriptedRepo commitFails) 0 1 3).outcome = .returned none ∧
    commits (CreateCat (scriptedRepo commitFails) 0 validCreate 3).calls = 1 ∧
    (CreateCat (scriptedRepo commitFails) 0 validCreate 3).outcome =
      .returned (some { CreatedAt := "1700000000", ID := "1" }, none) := by
  exact ⟨rfl, rfl, rfl, rfl, rfl⟩

/-- C13, amended: the error returned by `tx.Commit()` is discarded. Whatever
error (or nil) the commit returns, `CreateCat`, `DeleteCat` and `UpdateCat` end
the same way, leave the same repository state and make the same calls. -/
theorem commit_error_discarded {E : Entity} {σ : Type} (repo : Repo E σ)
    (f : σ → Option GoError) (s : σ) (req : CreateCatRequest) (userId catId : Nat)
    (upd : UpdateCatRequest) :
    CreateCat (withCommitError repo f) s req userId = CreateCat repo s req userId ∧
    DeleteCat (withCommitError repo f) s catId userId = DeleteCat repo s catId userId ∧
    UpdateCat (withCommitError repo f) s upd = UpdateCat repo s upd := by
  refine ⟨?_, ?_, ?_⟩
  · unfold CreateCat
    simp only [withCommitError, exitDeferred]
  · unfold DeleteCat
    simp only [withCommitError, exitDeferred]
  · unfold UpdateCat UpdateCat.transact UpdateCat.write
    simp only [withCommitError, exitDeferred]

/-- C14: when every other key of the find request parses, an empty age gives a
filter with `Age` unset, an age that is one of `>4`, `<4`, `4` gives a filter
whose `Age` is that token, and every other age gives `ErrValidation` and no
filter. -/
theorem parseFilterFindCat_age (E : Entity) (req : FindCatRequest)
    (hLimit : ∃ n, strconv.Atoi req.Limit = .ok n)
    (hOffset : ∃ n, strconv.Atoi req.Offset = .ok n)
    (hHasMatched : req.HasMatched = "" ∨ ∃ b, strconv.ParseBool req.HasMatched = .ok b)
    (hOwned : req.Owned = "" ∨ ∃ b, strconv.ParseBool req.Owned = .ok b)
    (hSex : req.Sex = "" ∨ ∃ v, E.StringToSex req.Sex = .ok v)
    (hRace : req.Race = "" ∨ ∃ v, E.StringToRace req.Race = .ok v)
    (hID : req.ID = "" ∨ ∃ n, strconv.ParseUint req.ID = .ok n) :
    (req.Age = "" →
      ∃ flt, parseFilterFindCat E req = (some flt, none) ∧ flt.Age = none) ∧
    (req.Age = ">4" ∨ req.Age = "<4" ∨ req.Age = "4" →
      ∃ flt, parseFilterFindCat E req = (some flt, none) ∧ flt.Age = some req.Age) ∧
    (req.Age ≠ "" → req.Age ≠ ">4" → req.Age ≠ "<4" → req.Age ≠ "4" →
      parseFilterFindCat E req = (none, some .ErrValidation)) := by
  obtain ⟨l, hl⟩ := hLimit
  obtain ⟨o, ho⟩ := hOffset
  have h1 : parseFilterFindCat.limit req FilterFindCat.zero =
      .ok { FilterFindCat.zero with Limit := l } := by
    simp [parseFilterFindCat.limit, hl]
  obtain ⟨o2, h2⟩ : ∃ o2, parseFilterFindCat.offset req { FilterFindCat.zero with Limit := l } =
      .ok o2 := by
    simp [parseFilterFindCat.offset, ho]
  obtain ⟨o3, h3⟩ : ∃ o3, parseFilterFindCat.hasMatched req o2 = .ok o3 := by
    unfold parseFilterFindCat.hasMatched
    rcases hHasMatched with h | ⟨b, h⟩
    · simp [h]
    · by_cases he : req.HasMatched = "" <;> simp [he, h]
  obtain ⟨o4, h4⟩ : ∃ o4, parseFilterFindCat.owned req o3 = .ok o4 := by
    unfold parseFilterFindCat.owned
    rcases hOwned with h | ⟨b, h⟩
    · simp [h]
    · by_cases he : req.Owned = ""
      · simp [he]
      · cases b <;> simp [he, h]
  obtain ⟨o5, h5⟩ : ∃ o5, parseFilterFindCat.sex E req o4 = .ok o5 := by
    unfold parseFilterFindCat.sex
    rcases hSex with h | ⟨b, h⟩
    · simp [h]
    · by_cases he : req.Sex = "" <;> simp [he, h]
  obtain ⟨o6, h6⟩ : ∃ o6, parseFilterFindCat.race E req o5 = .ok o6 := by
    unfold parseFilterFindCat.race
    rcases hRace with h | ⟨b, h⟩
    · simp [h]
    · by_cases he : req.Race = "" <;> simp [he, h]
  obtain ⟨o7, h7⟩ : ∃ o7, parseFilterFindCat.id req o6 = .ok o7 := by
    unfold parseFilterFindCat.id
    rcases hID with h | ⟨b, h⟩
    · simp [h]
    · by_cases he : req.ID = "" <;> simp [he, h]
  obtain ⟨o8, h8⟩ : ∃ o8, parseFilterFindCat.searchName req o7 = .ok o8 := by
    unfold parseFilterFindCat.searchName
    by_cases he : req.SearchName = "" <;> simp [he]
  have hrun : parseFilterFindCat.run E req = parseFilterFindCat.age req o8 := by
    simp only [parseFilterFindCat.run, bind, Except.bind, h1, h2, h3, h4, h5, h6, h7, h8]
  have hsucc : ∀ flt, parseFilterFindCat.age req o8 = .ok flt →
      parseFilterFindCat E req = (some flt, none) := by
    intro flt hf
    exact (parseFilterFindCat_eq_ok E req flt).2 (hrun.trans hf)
  refine ⟨fun ha => ?_, fun ha => ?_, fun a1 a2 a3 a4 => ?_⟩
  · rcases hg : parseFilterFindCat.age req o8 with e | flt
    · have := (parseFilterFindCat.age_error req o8 e).1 hg
      exact absurd ha this.2.1
    · refine ⟨flt, hsucc flt hg, ?_⟩
      have hk := parseFilterFindCat.run_ok E req flt (hrun.trans hg)
      rcases hk.2.2.2.2.2.2.2.2 with ⟨_, h⟩ | ⟨h, _⟩
      · exact h
      · rcases h with h | h | h <;> rw [ha] at h <;> exact absurd h (by decide)
  · rcases hg : parseFilterFindCat.age req o8 with e | flt
    · have := (parseFilterFindCat.age_error req o8 e).1 hg
      rcases ha with ha | ha | ha
      · exact absurd ha this.2.2.1
      · exact absurd ha this.2.2.2.1
      · exact absurd ha this.2.2.2.2
    · refine ⟨flt, hsucc flt hg, ?_⟩
      have hk := parseFilterFindCat.run_ok E req flt (hrun.trans hg)
      rcases hk.2.2.2.2.2.2.2.2 with ⟨h, _⟩ | ⟨_, h⟩
      · rcases ha with ha | ha | ha <;> rw [ha] at h <;> exact absurd h (by decide)
      · exact h
  · have hg : parseFilterFindCat.age req o8 = .error .ErrValidation :=
      (parseFilterFindCat.age_error req o8 _).2 ⟨rfl, a1, a2, a3, a4⟩
    unfold parseFilterFindCat
    rw [hrun, hg]

/-- Witness of C14: the spec example with limit 10 and offset 0, once with the
age `4` and once with the age `5`. -/
theorem parseFilterFindCat_age_witness :
    (∃ flt, parseFilterFindCat sampleEntity { firstPage with Age := "4" } = (some flt, none) ∧
      flt.Age = some "4") ∧
    parseFilterFindCat sampleEntity { firstPage with Age := "5" } =
      (none, some .ErrValidation) :=
  ⟨(parseFilterFindCat_age sampleEntity { firstPage with Age := "4" }
      ⟨10, rfl⟩ ⟨0, rfl⟩ (Or.inl rfl) (Or.inl rfl) (Or.inl rfl) (Or.inl rfl)
      (Or.inl rfl)).2.1 (Or.inr (Or.inr rfl)),
   (parseFilterFindCat_age sampleEntity { firstPage with Age := "5" }
      ⟨10, rfl⟩ ⟨0, rfl⟩ (Or.inl rfl) (Or.inl rfl) (Or.inl rfl) (Or.inl rfl)
      (Or.inl rfl)).2.2 (by decide) (by decide) (by decide) (by decide)⟩

/-- C15: `parseFilterFindCat` returns no filter and the error of
`strconv.Atoi` itself, which is not `ErrValidation`, when the limit does not
parse, and likewise when the limit parses and the offset does not; a limit or
offset that is empty or not a decimal integer string does not parse. When it
succeeds, `Limit` and `Offset` are the integers `strconv.Atoi` reads from the
two strings, and every optional key that is empty is unset in the filter. -/
theorem parseFilterFindCat_limit_offset (E : Entity) (req : FindCatRequest) :
    (∀ err, strconv.Atoi req.Limit = .error err →
      parseFilterFindCat E req = (none, some err) ∧ err ≠ .ErrValidation) ∧
    (∀ n err, strconv.Atoi req.Limit = .ok n → strconv.Atoi req.Offset = .error err →
      parseFilterFindCat E req = (none, some err) ∧ err ≠ .ErrValidation) ∧
    (req.Limit = "" ∨ isDecimalInteger req.Limit = false ∨
        req.Offset = "" ∨ isDecimalInteger req.Offset = false →
      ∃ err, parseFilterFindCat E req = (none, some err) ∧ err ≠ .ErrValidation ∧
        (strconv.Atoi req.Limit = .error err ∨ strconv.Atoi req.Offset = .error err)) ∧
    (∀ flt, parseFilterFindCat E req = (some flt, none) →
      strconv.Atoi req.Limit = .ok flt.Limit ∧
      strconv.Atoi req.Offset = .ok flt.Offset ∧
      (req.HasMatched = "" → flt.HasMatched = none) ∧
      (req.Owned = "" → flt.UserID = none) ∧
      (req.Sex = "" → flt.Sex = none) ∧
      (req.Race = "" → flt.Race = none) ∧
      (req.ID = "" → flt.ID = none) ∧
      (req.SearchName = "" → flt.SearchName = none) ∧
      (req.Age = "" → flt.Age = none)) := by
  have hA : ∀ err, strconv.Atoi req.Limit = .error err →
      parseFilterFindCat E req = (none, some err) ∧ err ≠ .ErrValidation := by
    intro err h
    refine ⟨?_, strconv.Atoi_error _ _ h⟩
    simp [parseFilterFindCat, parseFilterFindCat.run, parseFilterFindCat.limit, h, bind,
      Except.bind]
  have hB : ∀ n err, strconv.Atoi req.Limit = .ok n → strconv.Atoi req.Offset = .error err →
      parseFilterFindCat E req = (none, some err) ∧ err ≠ .ErrValidation := by
    intro n err h1 h2
    refine ⟨?_, strconv.Atoi_error _ _ h2⟩
    simp [parseFilterFindCat, parseFilterFindCat.run, parseFilterFindCat.limit,
      parseFilterFindCat.offset, h1, h2, bind, Except.bind]
  have hbad : ∀ s, s = "" ∨ isDecimalInteger s = false → ∃ err, strconv.Atoi s = .error err := by
    intro s hs
    rcases hr : strconv.Atoi s with err | n
    · exact ⟨err, rfl⟩
    · have hd := strconv.Atoi_ok s n hr
      rcases hs with hs | hs
      · subst hs; simp [isDecimalInteger] at hd
      · rw [hs] at hd; exact absurd hd (by decide)
  refine ⟨hA, hB, fun h => ?_, fun flt h => ?_⟩
  · rcases hl : strconv.Atoi req.Limit with err | n
    · exact ⟨err, (hA err hl).1, (hA err hl).2, Or.inl rfl⟩
    · have ho : req.Offset = "" ∨ isDecimalInteger req.Offset = false := by
        rcases h with h | h | h | h
        · obtain ⟨e, he⟩ := hbad _ (Or.inl h); rw [hl] at he; exact absurd he (by simp)
        · obtain ⟨e, he⟩ := hbad _ (Or.inr h); rw [hl] at he; exact absurd he (by simp)
        · exact Or.inl h
        · exact Or.inr h
      obtain ⟨err, he⟩ := hbad _ ho
      exact ⟨err, (hB n err hl he).1, (hB n err hl he).2, Or.inr he⟩
  · have hk := parseFilterFindCat.run_ok E req flt ((parseFilterFindCat_eq_ok E req flt).1 h)
    obtain ⟨k1, k2, k3, k4, k5, k6, k7, k8, k9⟩ := hk
    refine ⟨k1, k2, fun he => ?_, fun he => ?_, fun he => ?_, fun he => ?_, fun he => ?_,
      fun he => ?_, fun he => ?_⟩
    · rcases k3 with ⟨_, h⟩ | ⟨hn, _⟩
      · exact h
      · exact absurd he hn
    · rcases k4 with ⟨_, h⟩ | ⟨hn, _⟩ | ⟨hn, _⟩
      · exact h
      · exact absurd he hn
      · exact absurd he hn
    · rcases k5 with ⟨_, h⟩ | ⟨hn, _⟩
      · exact h
      · exact absurd he hn
    · rcases k6 with ⟨_, h⟩ | ⟨hn, _⟩
      · exact h
      · exact absurd he hn
    · rcases k7 with ⟨_, h⟩ | ⟨hn, _⟩
      · exact h
      · exact absurd he hn
    · rcases k8 with ⟨_, h⟩ | ⟨hn, _⟩
      · exact h
      · exact absurd he hn
    · rcases k9 with ⟨_, h⟩ | ⟨hn, _⟩
      · exact h
      · rcases hn with hn | hn | hn <;> rw [he] at hn <;> exact absurd hn (by decide)

/-- Witness of C15: limit `10` and offset `0` with no other key give the filter
with `Limit = 10`, `Offset = 0` and nothing else set; the limit `abc` gives the
syntax error of `strconv.Atoi`. -/
theorem parseFilterFindCat_limit_offset_witness :
    parseFilterFindCat sampleEntity firstPage =
      (some { FilterFindCat.zero with Limit := 10, Offset := 0 }, none) ∧
    (strconv.Atoi firstPage.Limit = .ok 10 ∧ strconv.Atoi firstPage.Offset = .ok 0) ∧
    (parseFilterFindCat sampleEntity { firstPage with Limit := "abc" } =
        (none, some (strconv.syntaxError "Atoi" "abc")) ∧
      strconv.syntaxError "Atoi" "abc" ≠ .ErrValidation) :=
  ⟨by decide,
   ⟨((parseFilterFindCat_limit_offset sampleEntity firstPage).2.2.2
        { FilterFindCat.zero with Limit := 10, Offset := 0 } (by decide)).1,
    ((parseFilterFindCat_limit_offset sampleEntity firstPage).2.2.2
        { FilterFindCat.zero with Limit := 10, Offset := 0 } (by decide)).2.1⟩,
   (parseFilterFindCat_limit_offset sampleEntity { firstPage with Limit := "abc" }).1
     (strconv.syntaxError "Atoi" "abc") rfl⟩

/-- C16: on every find request that `parseFilterFindCat` accepts, the filter
has `UserID` set exactly when the key `owned` parses as true, and it is then
the ID of the caller carried in the request; when `owned` is empty or parses
as false, `UserID` is unset. -/
theorem parseFilterFindCat_owner (E : Entity) (req : FindCatRequest) (flt : FilterFindCat)
    (h : parseFilterFindCat E req = (some flt, none)) :
    (flt.UserID ≠ none ↔ strconv.ParseBool req.Owned = .ok true) ∧
    (strconv.ParseBool req.Owned = .ok true → flt.UserID = some req.UserId) ∧
    (req.Owned = "" ∨ strconv.ParseBool req.Owned = .ok false → flt.UserID = none) := by
  have hk := parseFilterFindCat.run_ok E req flt ((parseFilterFindCat_eq_ok E req flt).1 h)
  have he : strconv.ParseBool "" ≠ .ok true := by
    intro hh
    simp [strconv.ParseBool] at hh
  rcases hk.2.2.2.1 with ⟨h1, h2⟩ | ⟨h1, h2, h3⟩ | ⟨h1, h2, h3⟩
  · rw [h1, h2]
    simp [he]
  · rw [h2, h3]
    simp
  · rw [h2, h3]
    simp [h1]

/-- Witness of C16: caller 3 with `owned` set to `true` gets the owner
restriction 3, and with `owned` set to `false` gets none. -/
theorem parseFilterFindCat_owner_witness :
    (parseFilterFindCat sampleEntity { firstPage with Owned := "true" } =
        (some { FilterFindCat.zero with Limit := 10, Offset := 0, UserID := some 3 }, none) ∧
      ({ FilterFindCat.zero with Limit := 10, Offset := 0, UserID := some 3 } :
        FilterFindCat).UserID = some 3) ∧
    (parseFilterFindCat sampleEntity { firstPage with Owned := "false" } =
        (some { FilterFindCat.zero with Limit := 10, Offset := 0 }, none) ∧
      ({ FilterFindCat.zero with Limit := 10, Offset := 0 } : FilterFindCat).UserID = none) :=
  ⟨⟨by decide,
    (parseFilterFindCat_owner sampleEntity { firstPage with Owned := "true" }
      { FilterFindCat.zero with Limit := 10, Offset := 0, UserID := some 3 }
      (by decide)).2.1 rfl⟩,
   ⟨by decide,
    (parseFilterFindCat_owner sampleEntity { firstPage with Owned := "false" }
      { FilterFindCat.zero with Limit := 10, Offset := 0 } (by decide)).2.2 (Or.inr rfl)⟩⟩

/-- C17: when the filter of a find request parses and the repository returns
the cats without an error, `FindCat` returns no error and one response per
cat, in the same order; each response has the ID of its cat in decimal, the
name, image URLs, age, description and matched flag copied, and the sex, race
and creation time rendered. For no cat the result is the empty (nil) slice. -/
theorem FindCat_maps_listings {E : Entity} {σ : Type} (repo : Repo E σ) (s s1 : σ)
    (req : FindCatRequest) (flt : FilterFindCat) (cats : List (Cat E))
    (hp : parseFilterFindCat E req = (some flt, none))
    (hr : repo.FindCat (some flt) s = ((cats, none), s1)) :
    ∃ resp, (FindCat repo s req).outcome = .returned (resp, none) ∧
      sliceLen resp = cats.length ∧
      resp.getD [] = cats.map (fun cat =>
        { ID := toString cat.ID
          Name := cat.Name
          Sex := E.SexString cat.Sex
          Race := E.RaceString cat.Race
          ImageUrls := cat.ImageUrls
          AgeInMonth := cat.Age
          Description := cat.Description
          HasMatched := cat.HasMatched
          CreatedAt := E.Format cat.CreatedAt }) ∧
      (cats = [] → resp = none) := by
  refine ⟨cats.foldl (fun resp cat => goAppend resp (FindCat.response cat)) none, ?_, ?_, ?_, ?_⟩
  · simp [FindCat, hp, hr]
  · have h := (goAppend_foldl (FindCat.response (E := E)) cats none).1
    cases cats with
    | nil => rfl
    | cons c cs =>
      rcases hf : (c :: cs).foldl (fun resp cat => goAppend resp (FindCat.response cat)) none
        with _ | l
      · rw [hf] at h
        simp at h
      · rw [hf] at h
        simp only [Option.getD_some, Option.getD_none, List.nil_append] at h
        simp [sliceLen, h]
  · have h := (goAppend_foldl (FindCat.response (E := E)) cats none).1
    simpa [FindCat.response] using h
  · intro hc
    exact (goAppend_foldl (FindCat.response (E := E)) cats none).2 hc

/-- Witness of C17: the first page on the repository that holds the one stored
cat, and on the repository that holds none. -/
theorem FindCat_maps_listings_witness :
    (∃ resp, (FindCat (scriptedRepo allSucceed) 0 firstPage).outcome = .returned (resp, none) ∧
      sliceLen resp = 1 ∧
      resp.getD [] =
        [{ ID := "1", Name := "Tom", Sex := "male", Race := "Persian",
           ImageUrls := some ["http://x/1.jpg"], AgeInMonth := 12,
           Description := "A calm cat", HasMatched := false, CreatedAt := "1700000000" }] ∧
      (([storedCat] : List (Cat sampleEntity)) = [] → resp = none)) ∧
    (∃ resp, (FindCat (scriptedRepo emptyRefetch) 0 firstPage).outcome =
        .returned (resp, none) ∧
      sliceLen resp = 0 ∧
      resp.getD [] = [] ∧
      (([] : List (Cat sampleEntity)) = [] → resp = none)) :=
  ⟨FindCat_maps_listings (scriptedRepo allSucceed) 0 1 firstPage
      { FilterFindCat.zero with Limit := 10, Offset := 0 } [storedCat] (by decide) rfl,
   FindCat_maps_listings (scriptedRepo emptyRefetch) 0 1 firstPage
      { FilterFindCat.zero with Limit := 10, Offset := 0 } [] (by decide) rfl⟩

/-- C18: `CreateCat` called for caller 9 with a valid request whose payload
carries the user ID 3 hands the repository insert a listing owned by 3, not
by 9: the argument `userId` is not used. -/
theorem CreateCat_owner_is_not_the_argument :
    (insertedCats (CreateCat (scriptedRepo allSucceed) 0 validCreate 9).calls).map
        (fun cat => cat.UserID) = [3] ∧
    validCreate.UserID = 3 ∧ (3 : Nat) ≠ 9 := by
  exact ⟨rfl, rfl, by decide⟩

/-- C19: on a valid create request, with a repository whose insert and commit
succeed and whose re-fetch returns an empty list and no error, `CreateCat`
panics on `cats[0]` (index out of range) after the commit, instead of
returning an error. -/
theorem CreateCat_empty_refetch_faults :
    (CreateCat (scriptedRepo emptyRefetch) 0 validCreate 3).outcome =
      .fault .indexOutOfRange ∧
    commits (CreateCat (scriptedRepo emptyRefetch) 0 validCreate 3).calls = 1 ∧
    rollbacks (CreateCat (scriptedRepo emptyRefetch) 0 validCreate 3).calls = 0 := by
  exact ⟨rfl, rfl, rfl⟩

/-- C20: `validateUpdateCat` panics on a nil pointer on the update request that
supplies only the valid sex `male`, and on the one that supplies only the
valid race `Persian`: it stores through the nil fields `updateCat.Sex` and
`updateCat.Race`. -/
theorem validateUpdateCat_valid_enum_faults :
    validateUpdateCat sampleEntity { emptyUpdate with Sex := some "male" } =
      .fault .nilDereference ∧
    validateUpdateCat sampleEntity { emptyUpdate with Race := some "Persian" } =
      .fault .nilDereference := by
  exact ⟨by decide, by decide⟩

end CatsSocial
